import Mathlib

/-!
# Verification of the igbdatatools core against its specification

Shallow embedding of the scalar data-type system (`datatypes.py`), the
metadata model (`loggerdata/metadata.py`), the header/variant resolver
(`loggerdata/toa5/dataimport.py`), the record engine
(`loggerdata/importdefs.py`) and the time-sequence quality checker
(`loggerdata/qualitycheck.py`), together with theorems settling the
specification's claims about them.

Python strings are modelled as Lean `String`, Python `int` as `Int`/`Nat`
(Python integers are unbounded, so no wrap-around modelling is needed),
`datetime.datetime` as an explicit record of calendar fields, and fallible
code as `Option`/`Except`.
-/

namespace IgbData

/-- Decidable equality for `Except`, so that concrete runs of the
fallible operations can be settled by `decide`. -/
instance {ε α} [DecidableEq ε] [DecidableEq α] : DecidableEq (Except ε α)
  | .ok a, .ok b =>
    if h : a = b then isTrue (by rw [h])
    else isFalse (by intro hc; cases hc; exact h rfl)
  | .error e, .error f =>
    if h : e = f then isTrue (by rw [h])
    else isFalse (by intro hc; cases hc; exact h rfl)
  | .ok _, .error _ => isFalse (by intro hc; cases hc)
  | .error _, .ok _ => isFalse (by intro hc; cases hc)

/-- Model of Python `str.lower` (both languages map ASCII `A`-`Z` to
`a`-`z`; only ASCII is relevant to these claims). -/
def strLower (s : String) : String := String.mk (s.data.map Char.toLower)

/-- Value of a decimal digit list, most significant first; models Python
`int(...)` applied to a string of digits (`int` is arbitrary precision). -/
def digitsToNat (l : List Char) : Nat :=
  l.foldl (fun acc c => acc * 10 + (c.toNat - '0'.toNat)) 0

/-- `[0-9]+` with no leading zero unless the value is exactly `0`:
the body of `NonNegInt._uint_regex`, `\A(?!0[0-9])[0-9]+\Z`. -/
def noLeadingZeroDigits (l : List Char) : Bool :=
  match l with
  | [] => false
  | c :: rest => c.isDigit && rest.all (·.isDigit) && !(c == '0' && !rest.isEmpty)

/-- `BigInt._int_regex`, `\A-?(?!0[0-9])[0-9]+\Z`. -/
def intRegexMatch (l : List Char) : Bool :=
  match l with
  | '-' :: rest => noLeadingZeroDigits rest
  | _ => noLeadingZeroDigits l

/-- Signed integer value of a string matching `intRegexMatch`. -/
def strToInt (l : List Char) : Int :=
  match l with
  | '-' :: rest => -(digitsToNat rest : Int)
  | _ => (digitsToNat l : Int)

/-- The negative lookahead `(?!-?\.?\Z)` of the `Num` regexes fails the
match exactly on these four strings. -/
def numLookaheadExcluded (l : List Char) : Bool :=
  match l with
  | [] => true
  | ['-'] => true
  | ['.'] => true
  | ['-', '.'] => true
  | _ => false

/-- Split a character list at the first `.`; the regexes treat everything
after it as the fractional digit group. -/
def splitDot : List Char → List Char × Option (List Char)
  | [] => ([], none)
  | c :: rest =>
    if c = '.' then ([], some rest)
    else
      let (ip, fp) := splitDot rest
      (c :: ip, fp)

/-- Strip the optional leading `-` consumed by the `-?` of the `Num`
regexes. -/
def stripNeg (l : List Char) : List Char :=
  match l with
  | '-' :: rest => rest
  | _ => l

/-- `Num._base_num_regex`, `\A(?!-?\.?\Z)-?\d*(?:\.\d*)?\Z`. -/
def baseNumRegexMatch (l : List Char) : Bool :=
  if numLookaheadExcluded l then false
  else
    let (ip, fp) := splitDot (stripNeg l)
    ip.all (·.isDigit) &&
      (match fp with
       | none => true
       | some f => f.all (·.isDigit))

/-- The constrained regex built in `Num.__init__` for explicit
`precision`/`scale`: integer part `\d{0,precision-scale}` when
`precision-scale > 0` else `0*`, fractional part `\d{0,scale}` when
`scale > 0` else `0*`, with the same negative lookahead. -/
def constrainedNumRegexMatch (precision scale : Nat) (l : List Char) : Bool :=
  if numLookaheadExcluded l then false
  else
    let (ip, fp) := splitDot (stripNeg l)
    (if precision - scale > 0 then
        ip.all (·.isDigit) && ip.length ≤ precision - scale
      else ip.all (· == '0')) &&
      (match fp with
       | none => true
       | some f =>
          if scale > 0 then f.all (·.isDigit) && f.length ≤ scale
          else f.all (· == '0'))

/-! ## The scalar data types (`datatypes.py`)

The source's open class hierarchy (`BaseType` with one subclass per type)
becomes a closed sum; `Num`'s `precision`/`scale` constructor arguments
(each optionally `None`) become two `Option Nat` fields. -/

inductive BaseType where
  | NonNegInt : BaseType
  | BigInt : BaseType
  | TimestampNoTz : BaseType
  | TimestampWithTz : BaseType
  | OnlyNan : BaseType
  | Ignore : BaseType
  | Num (precision scale : Option Nat) : BaseType
deriving DecidableEq, Repr

/-- The argument checks of `Num.__init__`: constructing `Num` raises
unless `scale` is only given together with `precision`,
`1 <= precision <= 1000` and `0 <= scale <= precision`. -/
def numArgsValid (precision scale : Option Nat) : Bool :=
  match precision, scale with
  | none, none => true
  | none, some _ => false
  | some p, sc =>
    let s := sc.getD 0
    1 ≤ p && p ≤ 1000 && s ≤ p

/-- A constructible data-type value (non-`Num` constructors carry no
arguments and always construct). -/
def BaseType.valid : BaseType → Bool
  | .Num p s => numArgsValid p s
  | _ => true

/-- Core of the `TimestampNoTz` regex
`\A\d{4}-\d\d-\d\d \d\d:\d\d:\d\d\Z` (exactly 19 characters). -/
def tsCoreMatch (l : List Char) : Bool :=
  match l with
  | [y1, y2, y3, y4, s1, m1, m2, s2, d1, d2, sp, h1, h2, c1, i1, i2, c2, e1, e2] =>
    y1.isDigit && y2.isDigit && y3.isDigit && y4.isDigit && s1 == '-' &&
    m1.isDigit && m2.isDigit && s2 == '-' && d1.isDigit && d2.isDigit &&
    sp == ' ' && h1.isDigit && h2.isDigit && c1 == ':' && i1.isDigit &&
    i2.isDigit && c2 == ':' && e1.isDigit && e2.isDigit
  | _ => false

/-- The time-zone suffix of the `TimestampWithTz` regex:
`(?: ?[-+]\d\d:\d\d|Z)`. -/
def tzSuffixMatch (l : List Char) : Bool :=
  match l with
  | ['Z'] => true
  | [sg, a1, a2, c, b1, b2] =>
    (sg == '+' || sg == '-') && a1.isDigit && a2.isDigit && c == ':' &&
    b1.isDigit && b2.isDigit
  | [' ', sg, a1, a2, c, b1, b2] =>
    (sg == '+' || sg == '-') && a1.isDigit && a2.isDigit && c == ':' &&
    b1.isDigit && b2.isDigit
  | _ => false

/-- `TimestampWithTz._timestamptz_regex`,
`\A\d{4}-\d\d-\d\d \d\d:\d\d:\d\d(?: ?[-+]\d\d:\d\d|Z)\Z`. -/
def tsTzMatch (l : List Char) : Bool :=
  tsCoreMatch (l.take 19) && tzSuffixMatch (l.drop 19)

/-- `check` of each data type, translated case by case from
`datatypes.py`.  Every implementation that special-cases NaN does so via
`value.lower() == 'nan'`. -/
def BaseType.check (t : BaseType) (value : String) : Bool :=
  match t with
  | .NonNegInt =>
    if strLower value = "nan" then true
    else if !noLeadingZeroDigits value.data then false
    else decide (digitsToNat value.data < 2 ^ 31)
  | .BigInt =>
    if strLower value = "nan" then true
    else if !intRegexMatch value.data then false
    else decide (-2 ^ 63 ≤ strToInt value.data ∧ strToInt value.data < 2 ^ 63)
  | .TimestampNoTz => tsCoreMatch value.data
  | .TimestampWithTz => tsTzMatch value.data
  | .OnlyNan => strLower value = "nan"
  | .Ignore => true
  | .Num precision scale =>
    if strLower value = "nan" then true
    else
      match precision with
      | none => baseNumRegexMatch value.data
      | some p => constrainedNumRegexMatch p (scale.getD 0) value.data

/-! ## Datetimes

Model of naive `datetime.datetime` values (the microsecond field is kept
because `Interval.floor` zeroes it). -/

structure DateTime where
  year : Nat
  month : Nat
  day : Nat
  hour : Nat
  minute : Nat
  second : Nat
  microsecond : Nat := 0
deriving DecidableEq, Repr

def isLeapYear (y : Nat) : Bool := (y % 4 == 0 && y % 100 != 0) || y % 400 == 0

def daysInMonth (y m : Nat) : Nat :=
  match m with
  | 1 => 31 | 2 => if isLeapYear y then 29 else 28 | 3 => 31 | 4 => 30
  | 5 => 31 | 6 => 30 | 7 => 31 | 8 => 31 | 9 => 30 | 10 => 31 | 11 => 30
  | _ => 31

/-- The range checks `datetime.datetime` performs on construction
(`MINYEAR = 1`, `MAXYEAR = 9999`). -/
def validDateTime (dt : DateTime) : Bool :=
  1 ≤ dt.year && dt.year ≤ 9999 && 1 ≤ dt.month && dt.month ≤ 12 &&
  1 ≤ dt.day && dt.day ≤ daysInMonth dt.year dt.month &&
  dt.hour ≤ 23 && dt.minute ≤ 59 && dt.second ≤ 59 && dt.microsecond ≤ 999999

/-- Extract the six timestamp fields from a 19-character
`YYYY-MM-DD HH:MM:SS` character list (shape checked via `tsCoreMatch`). -/
def parseTs19 (l : List Char) : Option DateTime :=
  match l with
  | [y1, y2, y3, y4, _, m1, m2, _, d1, d2, _, h1, h2, _, i1, i2, _, e1, e2] =>
    if tsCoreMatch l then
      some { year := digitsToNat [y1, y2, y3, y4], month := digitsToNat [m1, m2],
             day := digitsToNat [d1, d2], hour := digitsToNat [h1, h2],
             minute := digitsToNat [i1, i2], second := digitsToNat [e1, e2] }
    else none
  | _ => none

/-- Model of `datetime.fromisoformat` on strings that matched the
`TimestampNoTz` regex: the shape is accepted, and construction then
validates the calendar fields. -/
def fromisoformatNoTz (s : String) : Option DateTime :=
  match parseTs19 s.data with
  | some dt => if validDateTime dt then some dt else none
  | none => none

/-- Parse and validate the UTC-offset suffix accepted by the
`TimestampWithTz` regex, in minutes.  `fromisoformat` additionally
requires the offset minutes field to be below 60 and the whole offset to
be strictly less than 24 hours (`datetime.timezone`'s range check). -/
def parseTzSuffix (l : List Char) : Option Int :=
  if !tzSuffixMatch l then none
  else
    match l with
    | ['Z'] => some 0
    | [sg, a1, a2, _, b1, b2] =>
      let hh := digitsToNat [a1, a2]
      let mm := digitsToNat [b1, b2]
      if mm ≤ 59 && hh * 60 + mm < 24 * 60 then
        some (if sg == '-' then -((hh * 60 + mm : Nat) : Int) else ((hh * 60 + mm : Nat) : Int))
      else none
    | [_, sg, a1, a2, _, b1, b2] =>
      let hh := digitsToNat [a1, a2]
      let mm := digitsToNat [b1, b2]
      if mm ≤ 59 && hh * 60 + mm < 24 * 60 then
        some (if sg == '-' then -((hh * 60 + mm : Nat) : Int) else ((hh * 60 + mm : Nat) : Int))
      else none
    | _ => none

/-- Model of `datetime.fromisoformat` on strings that matched the
`TimestampWithTz` regex: the naive fields plus the offset in minutes. -/
def fromisoformatWithTz (s : String) : Option (DateTime × Int) :=
  match parseTs19 (s.data.take 19), parseTzSuffix (s.data.drop 19) with
  | some dt, some off => if validDateTime dt then some (dt, off) else none
  | _, _ => none

/-- Calendar successor of a date. -/
def nextDate : Nat × Nat × Nat → Nat × Nat × Nat
  | (y, m, d) =>
    if d < daysInMonth y m then (y, m, d + 1)
    else if m < 12 then (y, m + 1, 1)
    else (y + 1, 1, 1)

/-- Calendar predecessor of a date. -/
def prevDate : Nat × Nat × Nat → Nat × Nat × Nat
  | (y, m, d) =>
    if 1 < d then (y, m, d - 1)
    else if 1 < m then (y, m - 1, daysInMonth y (m - 1))
    else (y - 1, 12, 31)

def addDaysNat : Nat → Nat × Nat × Nat → Nat × Nat × Nat
  | 0, ymd => ymd
  | n + 1, ymd => addDaysNat n (nextDate ymd)

def subDaysNat : Nat → Nat × Nat × Nat → Nat × Nat × Nat
  | 0, ymd => ymd
  | n + 1, ymd => subDaysNat n (prevDate ymd)

/-- `datetime ± timedelta(minutes=k)`: shift a datetime by `k` minutes,
carrying into the date; seconds and microseconds are unchanged (the shift
is in whole minutes). -/
def shiftMinutes (dt : DateTime) (k : Int) : DateTime :=
  let total : Int := ((dt.hour * 60 + dt.minute : Nat) : Int) + k
  let dayShift : Int := Int.ediv total 1440
  let rem : Nat := (Int.emod total 1440).toNat
  let ymd :=
    if 0 ≤ dayShift then addDaysNat dayShift.toNat (dt.year, dt.month, dt.day)
    else subDaysNat (-dayShift).toNat (dt.year, dt.month, dt.day)
  { dt with year := ymd.1, month := ymd.2.1, day := ymd.2.2,
            hour := rem / 60, minute := rem % 60 }

/-- `YYYY-MM-DD HH:MM:SS` rendering of a datetime, each field
zero-padded to fixed width. -/
def fmtTs (dt : DateTime) : List Char :=
  [Nat.digitChar (dt.year / 1000 % 10), Nat.digitChar (dt.year / 100 % 10),
   Nat.digitChar (dt.year / 10 % 10), Nat.digitChar (dt.year % 10), '-',
   Nat.digitChar (dt.month / 10 % 10), Nat.digitChar (dt.month % 10), '-',
   Nat.digitChar (dt.day / 10 % 10), Nat.digitChar (dt.day % 10), ' ',
   Nat.digitChar (dt.hour / 10 % 10), Nat.digitChar (dt.hour % 10), ':',
   Nat.digitChar (dt.minute / 10 % 10), Nat.digitChar (dt.minute % 10), ':',
   Nat.digitChar (dt.second / 10 % 10), Nat.digitChar (dt.second % 10)]

/-- The canonical UTC output form `YYYY-MM-DD HH:MM:SSZ`. -/
def fmtTsZ (dt : DateTime) : String := String.mk (fmtTs dt ++ ['Z'])

/-- The spec's canonical UTC output shape: `YYYY-MM-DD HH:MM:SS`
followed by a trailing `Z`. -/
def isCanonicalUtcZ (s : String) : Bool :=
  tsCoreMatch (s.data.take 19) && s.data.drop 19 == ['Z']

/-! ## Conversions `to_py` / `to_np`

Modelled as `Option`-valued: `none` is a raised exception (`TypeError`
from a failed `check`, `NotImplementedError` from the abstract base
methods, `ValueError` from a failed `fromisoformat`/`Decimal`/`float`
conversion). -/

inductive PyValue where
  | none : PyValue
  | int (i : Int) : PyValue
  | decimal (lit : String) : PyValue
  | datetime (dt : DateTime) (offsetMinutes : Option Int) : PyValue
deriving DecidableEq, Repr

inductive NpValue where
  | nan : NpValue
  | uint32 (n : Nat) : NpValue
  | int64 (i : Int) : NpValue
  | float64 (lit : String) : NpValue
  | datetime64 (dt : DateTime) : NpValue
deriving DecidableEq, Repr

/-- Does the exponent-part position of a numeric literal parse
(empty, or `e`/`E`, optional sign, one or more digits)? -/
def expPartAccepts : List Char → Bool
  | [] => true
  | 'e' :: r => match r with
    | '+' :: d => !d.isEmpty && d.all (·.isDigit)
    | '-' :: d => !d.isEmpty && d.all (·.isDigit)
    | d => !d.isEmpty && d.all (·.isDigit)
  | 'E' :: r => match r with
    | '+' :: d => !d.isEmpty && d.all (·.isDigit)
    | '-' :: d => !d.isEmpty && d.all (·.isDigit)
    | d => !d.isEmpty && d.all (·.isDigit)
  | _ => false

/-- Strip one optional leading sign of a numeric literal. -/
def stripSign (l : List Char) : List Char :=
  match l with
  | [] => []
  | c :: rest => if c == '+' || c == '-' then rest else c :: rest

/-- Unsigned numeric literal: `digits [. digits] [exp]`, `digits. [exp]`
or `.digits [exp]`. -/
def unsignedNumericAccepts (l : List Char) : Bool :=
  let (ip, r) := l.span (·.isDigit)
  match r with
  | '.' :: r2 =>
    let (fp, r3) := r2.span (·.isDigit)
    (!ip.isEmpty || !fp.isEmpty) && expPartAccepts r3
  | _ => !ip.isEmpty && expPartAccepts r

/-- Model of the string grammar accepted by both `decimal.Decimal(str)`
and `float(str)`/`numpy.float64(str)` on the fragment these proofs touch:
an optional sign, then a numeric literal or (case-insensitively) one of
the specials `nan`/`inf`/`infinity`. -/
def pyNumericLiteralAccepts (s : String) : Bool :=
  let low1 := stripSign (strLower s).data
  low1 = "nan".data || low1 = "inf".data || low1 = "infinity".data ||
    unsignedNumericAccepts (stripSign s.data)

/-- The characters contributed by the optional fractional digit group of
a `Num` regex match. -/
def fpSuffix : Option (List Char) → List Char
  | none => []
  | some f => '.' :: f

/-- `to_py` of each data type, translated case by case from
`datatypes.py`; every concrete implementation first re-runs `check` and
raises on failure.  `Ignore` inherits the abstract `BaseType.to_py`,
which always raises `NotImplementedError`. -/
def BaseType.to_py (t : BaseType) (value : String) : Option PyValue :=
  match t with
  | .NonNegInt =>
    if !t.check value then none
    else if strLower value = "nan" then some .none
    else some (.int (digitsToNat value.data))
  | .BigInt =>
    if !t.check value then none
    else if strLower value = "nan" then some .none
    else some (.int (strToInt value.data))
  | .TimestampNoTz =>
    if !t.check value then none
    else (fromisoformatNoTz value).map (.datetime · Option.none)
  | .TimestampWithTz =>
    if !t.check value then none
    else (fromisoformatWithTz value).map fun p => .datetime p.1 (some p.2)
  | .OnlyNan => if !t.check value then none else some .none
  | .Ignore => none
  | .Num _ _ =>
    if !t.check value then none
    else if pyNumericLiteralAccepts value then some (.decimal value) else none

/-- `to_np` of each data type; `TimestampWithTz.to_np` converts to UTC
(`astimezone(timezone.utc)`) before building the `datetime64`. -/
def BaseType.to_np (t : BaseType) (value : String) : Option NpValue :=
  match t with
  | .NonNegInt =>
    if !t.check value then none
    else if strLower value = "nan" then some .nan
    else some (.uint32 (digitsToNat value.data))
  | .BigInt =>
    if !t.check value then none
    else if strLower value = "nan" then some .nan
    else some (.int64 (strToInt value.data))
  | .TimestampNoTz =>
    if !t.check value then none
    else (fromisoformatNoTz value).map .datetime64
  | .TimestampWithTz =>
    if !t.check value then none
    else (fromisoformatWithTz value).map fun p => .datetime64 (shiftMinutes p.1 (-p.2))
  | .OnlyNan => if !t.check value then none else some .nan
  | .Ignore => none
  | .Num _ _ =>
    if !t.check value then none
    else if pyNumericLiteralAccepts value then some (.float64 value) else none

/-! ## Type-spec string grammar (`from_string` and `__repr__`) -/

/-- Decimal digit characters of `n`, most significant first (`fuel`
bounds the recursion; any `fuel > n` is enough).  Models Python's
decimal rendering of a nonnegative `int`. -/
def natToDigitsAux : Nat → Nat → List Char
  | _, 0 => []
  | n, fuel + 1 =>
    if n < 10 then [Nat.digitChar n]
    else natToDigitsAux (n / 10) fuel ++ [Nat.digitChar (n % 10)]

def natToStr (n : Nat) : String := String.mk (natToDigitsAux n (n + 1))

/-- `__repr__`: the inherited class-name form for argument-less types and
`Num.__repr__`'s three cases. -/
def BaseType.reprStr : BaseType → String
  | .NonNegInt => "NonNegInt"
  | .BigInt => "BigInt"
  | .TimestampNoTz => "TimestampNoTz"
  | .TimestampWithTz => "TimestampWithTz"
  | .OnlyNan => "OnlyNan"
  | .Ignore => "Ignore"
  | .Num Option.none Option.none => "Num"
  | .Num (some p) Option.none => "Num(" ++ natToStr p ++ ")"
  | .Num (some p) (some s) => "Num(" ++ natToStr p ++ "," ++ natToStr s ++ ")"
  | .Num Option.none (some s) => "Num(None," ++ natToStr s ++ ")"

/-- The parenthesised argument part of `_parseNum_regex`: one digit
group (`span` on `isDigit`, i.e. `takeWhile`/`dropWhile`), optionally a
comma and a second digit group, then the closing parenthesis. -/
def parseNumInner (rest : List Char) : Option (Option Nat × Option Nat) :=
  let g1 := rest.takeWhile (·.isDigit)
  let r1 := rest.dropWhile (·.isDigit)
  if g1.isEmpty then none
  else
    match r1 with
    | [')'] => some (some (digitsToNat g1), Option.none)
    | ',' :: r2 =>
      let g2 := r2.takeWhile (·.isDigit)
      let r3 := r2.dropWhile (·.isDigit)
      if g2.isEmpty then none
      else
        match r3 with
        | [')'] => some (some (digitsToNat g1), some (digitsToNat g2))
        | _ => none
    | _ => none

/-- `_parseNum_regex`, `\ANum(?:\((\d+)(?:,(\d+))?\))?\Z`, returning the
two captured digit groups. -/
def parseNumSpec (l : List Char) : Option (Option Nat × Option Nat) :=
  match l with
  | ['N', 'u', 'm'] => some (Option.none, Option.none)
  | 'N' :: 'u' :: 'm' :: '(' :: rest => parseNumInner rest
  | _ => none

/-- The argument validation performed by `Num.__init__` (modelled as
`Except`; the messages are the source's). -/
def mkNum (p sc : Option Nat) : Except String BaseType :=
  match p, sc with
  | Option.none, some _ => .error "must specify precision when scale is specified"
  | Option.none, Option.none => .ok (.Num Option.none Option.none)
  | some pp, sc =>
    if !(1 ≤ pp && pp ≤ 1000) then .error "precision must be 1 <= N <= 1000"
    else if !(sc.getD 0 ≤ pp) then .error "scale must be 0 <= N <= precision"
    else .ok (.Num (some pp) sc)

/-- `datatypes.from_string`: the six literal names, then the `Num` forms
via `_parseNum_regex`, else `ValueError`. -/
def from_string (s : String) : Except String BaseType :=
  if s.data = "NonNegInt".data then .ok .NonNegInt
  else if s.data = "BigInt".data then .ok .BigInt
  else if s.data = "TimestampNoTz".data then .ok .TimestampNoTz
  else if s.data = "TimestampWithTz".data then .ok .TimestampWithTz
  else if s.data = "OnlyNan".data then .ok .OnlyNan
  else if s.data = "Ignore".data then .ok .Ignore
  else
    match parseNumSpec s.data with
    | some (p, sc) => mkNum p sc
    | none => .error "failed to parse type"

/-! ## Intervals and their `floor` functions (`loggerdata/metadata.py`) -/

inductive Interval where
  | UNDEF | MIN15 | MIN30 | HOUR1 | DAY1 | WEEK1 | MONTH1
deriving DecidableEq, Repr

/-- `Interval.delta` is a `timedelta` for the fixed-length intervals and a
`relativedelta(months=1)` for `MONTH1`; the two have different addition
semantics, so the model keeps them as separate constructors. -/
inductive TimeDelta where
  | minutes (n : Nat) : TimeDelta
  | months (n : Nat) : TimeDelta
deriving DecidableEq, Repr

/-- `Interval.delta` (the `UNDEF` case raises `ValueError` in the source
and is exercised by no claim; it is mapped to a zero delta here). -/
def Interval.delta : Interval → TimeDelta
  | .UNDEF => .minutes 0
  | .MIN15 => .minutes 15
  | .MIN30 => .minutes 30
  | .HOUR1 => .minutes 60
  | .DAY1 => .minutes (24 * 60)
  | .WEEK1 => .minutes (7 * 24 * 60)
  | .MONTH1 => .months 1

/-- `datetime + delta`: minute deltas shift with carry; a
`relativedelta` month shift advances the month and clamps the day to the
target month's length. -/
def DateTime.addDelta (dt : DateTime) : TimeDelta → DateTime
  | .minutes n => shiftMinutes dt n
  | .months n =>
    let total := (dt.month - 1) + n
    let y := dt.year + total / 12
    let m := total % 12 + 1
    { dt with year := y, month := m, day := min dt.day (daysInMonth y m) }

/-- Number of leap years in `[1, n]`. -/
def leapsBefore (n : Nat) : Nat := n / 4 - n / 100 + n / 400

/-- Days in the months of `y` strictly before month `m`. -/
def daysBeforeMonth (y m : Nat) : Nat :=
  (List.range (m - 1)).foldl (fun acc i => acc + daysInMonth y (i + 1)) 0

/-- `date.toordinal`: proleptic Gregorian ordinal with `0001-01-01 = 1`. -/
def toOrdinal (y m d : Nat) : Nat :=
  365 * (y - 1) + leapsBefore (y - 1) + daysBeforeMonth y m + d

/-- `date.isoweekday` (`1` = Monday .. `7` = Sunday); day 1 of the
proleptic Gregorian calendar is a Monday. -/
def isoWeekday (y m d : Nat) : Nat := (toOrdinal y m d - 1) % 7 + 1

/-- `Interval.floor`, translated case by case.  `WEEK1` computes
`fromisocalendar(*stamp.isocalendar()[:2], 1)`, i.e. the Monday of the
stamp's ISO week, which equals stepping back `isoweekday - 1` calendar
days; `UNDEF` raises `ValueError` in the source and is exercised by no
claim (mapped to the identity here). -/
def Interval.floor : Interval → DateTime → DateTime
  | .UNDEF, dt => dt
  | .MIN15, dt =>
    let cmin := if dt.minute ≥ 45 then 45 else if dt.minute ≥ 30 then 30
                else if dt.minute ≥ 15 then 15 else 0
    { dt with minute := cmin, second := 0, microsecond := 0 }
  | .MIN30, dt =>
    let cmin := if dt.minute ≥ 30 then 30 else 0
    { dt with minute := cmin, second := 0, microsecond := 0 }
  | .HOUR1, dt => { dt with minute := 0, second := 0, microsecond := 0 }
  | .DAY1, dt => { dt with hour := 0, minute := 0, second := 0, microsecond := 0 }
  | .WEEK1, dt =>
    let ymd := subDaysNat (isoWeekday dt.year dt.month dt.day - 1)
                 (dt.year, dt.month, dt.day)
    { dt with year := ymd.1, month := ymd.2.1, day := ymd.2.2,
              hour := 0, minute := 0, second := 0, microsecond := 0 }
  | .MONTH1, dt =>
    { dt with day := 1, hour := 0, minute := 0, second := 0, microsecond := 0 }

/-! ## Datetime comparison

Naive `datetime` objects compare lexicographically by their fields. -/

def DateTime.key (dt : DateTime) : List Nat :=
  [dt.year, dt.month, dt.day, dt.hour, dt.minute, dt.second, dt.microsecond]

def lexLtNat : List Nat → List Nat → Bool
  | [], [] => false
  | [], _ :: _ => true
  | _ :: _, [] => false
  | a :: as, b :: bs => if a < b then true else if b < a then false else lexLtNat as bs

def dtLt (a b : DateTime) : Bool := lexLtNat a.key b.key

/-! ## Quality checker (`loggerdata/qualitycheck.py`) -/

inductive BasicQuality where
  | GOOD | UNUSUAL | BAD
deriving DecidableEq, Repr

/-- `itertools.pairwise`. -/
def pairwiseList : List α → List (α × α)
  | a :: b :: rest => (a, b) :: pairwiseList (b :: rest)
  | _ => []

/-- Classification of the second element `y` of one pair in
`check_timeseq_strict`: not floor-aligned is `BAD`; otherwise compare
against `interval.floor(x) + interval.delta` (equal is `GOOD`, a larger
floor-aligned step is `UNUSUAL`, anything else is `BAD`). -/
def classifyPairStrict (interval : Interval) (x y : DateTime) : BasicQuality :=
  if y = interval.floor y then
    let expY := (interval.floor x).addDelta interval.delta
    if y = expY then .GOOD
    else if dtLt expY y then .UNUSUAL
    else .BAD
  else .BAD

/-- `check_timeseq_strict`: iterates `pairwise(seq)`; on the first pair it
additionally yields the classification of the first element (`GOOD` iff
it equals its own floor). -/
def check_timeseq_strict (seq : List DateTime) (interval : Interval) : List BasicQuality :=
  match pairwiseList seq with
  | [] => []
  | (x0, y0) :: rest =>
    (if x0 = interval.floor x0 then BasicQuality.GOOD else BasicQuality.BAD) ::
      classifyPairStrict interval x0 y0 ::
      rest.map fun p => classifyPairStrict interval p.1 p.2

/-! ## Time ranges (`TimeRange` and `validate_set`) -/

/-- `TimeRange(why, start, end=None)`; the `ending` field models `end`
(a Lean keyword), `none` meaning a single-instant event. -/
structure TimeRange where
  why : String
  start : DateTime
  ending : Option DateTime
deriving DecidableEq, Repr

/-- The `bad` predicate computed inside `TimeRange.validate_set` for one
ordered pair `(x, y)` from `itertools.combinations(ranges, 2)`,
transcribed literally (Python's chained comparisons expanded, `and`
binding tighter than `or`). -/
def badPair (x y : TimeRange) : Bool :=
  match x.ending, y.ending with
  | some xe, some ye =>
    (dtLt x.start y.start && dtLt y.start xe && dtLt x.start ye && dtLt ye xe) ||
    (dtLt y.start x.start && dtLt x.start ye && dtLt y.start xe && dtLt xe ye) ||
    (dtLt x.start y.start && dtLt y.start xe) ||
    (dtLt x.start ye && dtLt ye xe)
  | some xe, none => dtLt x.start y.start && dtLt y.start xe
  | none, some ye => dtLt y.start x.start && dtLt x.start ye
  | none, none => x.start = y.start

/-- `itertools.combinations(l, 2)` in order. -/
def ordPairs : List α → List (α × α)
  | [] => []
  | x :: rest => rest.map (fun y => (x, y)) ++ ordPairs rest

/-- `TimeRange.validate_set`: raises (`.error`, carrying the pair) on the
first bad pair, else returns normally. -/
def validate_set (ranges : List TimeRange) : Except (TimeRange × TimeRange) Unit :=
  match (ordPairs ranges).find? (fun p => badPair p.1 p.2) with
  | some p => .error p
  | none => .ok ()

/-! ## Metadata model (`loggerdata/metadata.py`)

Only the fields that the resolver, the record engine and the loader's
variant-map construction read are modelled; purely descriptive fields
(`desc`, `plotgrp`, view mappings, sensor tables, ...) carry no behaviour
relevant to the claims and are omitted. -/

structure ColumnHeader where
  name : String
  unit : String := ""
  prc : String := ""
deriving DecidableEq, Repr

inductive LoggerOrigDataType where
  | CB_FP2 | CB_IEEE4 | CB_Timestamp | CB_Integer
deriving DecidableEq, Repr

structure MdColumn where
  name : String
  unit : Option String := none
  prc : Option String := none
  type : Option BaseType := none
  lodt : Option LoggerOrigDataType := none
  var : Option String := none
  sens : Option String := none
deriving DecidableEq, Repr

/-- `MdBaseCol.hdr`: `None` fields become empty strings. -/
def MdColumn.hdr (c : MdColumn) : ColumnHeader :=
  { name := c.name, unit := c.unit.getD "", prc := c.prc.getD "" }

/-- Modelled from the spec: `MdBaseCol.tup` is referenced by
`Record.typecheck`'s error message ("*Type errors* ... always explicit and
attributable to one column") and the repository's test suite asserts
`col.tup == (col.name, col.unit, col.prc)`, but the definition itself is
missing from the provided sources. -/
def MdColumn.tup (c : MdColumn) : String × Option String × Option String :=
  (c.name, c.unit, c.prc)

structure MdTable where
  name : String
  prikey : Nat
  interval : Interval
  columns : List MdColumn
  variants : List (List ColumnHeader × List Nat)
deriving DecidableEq, Repr

/-- Python `dict` lookup on the variant map (keys are header tuples with
structural equality). -/
def lookupVariant (variants : List (List ColumnHeader × List Nat))
    (cols : List ColumnHeader) : Option (List Nat) :=
  (variants.find? (fun e => e.1 == cols)).map (·.2)

structure Toa5EnvMatch where
  station_name : Option String := none
  logger_model : Option String := none
  logger_serial : Option String := none
  logger_os : Option String := none
  program_name : Option String := none
  program_sig : Option String := none
deriving DecidableEq, Repr

inductive LoggerType where
  | TOA5
deriving DecidableEq, Repr

structure Metadata where
  logger_name : String
  tables : List (String × MdTable)
  logger_type : LoggerType
  toa5_env_match : Option Toa5EnvMatch := none
  tz : Option Int := none
deriving DecidableEq, Repr

/-- Python `dict` lookup on the table dictionary. -/
def tablesLookup (tables : List (String × MdTable)) (k : String) : Option MdTable :=
  (tables.find? (fun e => e.1 == k)).map (·.2)

/-- The TOA5 "environment line" (`loggerdata/toa5/__init__.py`). -/
structure EnvironmentLine where
  station_name : String
  logger_model : String
  logger_serial : String
  logger_os : String
  program_name : String
  program_sig : String
  table_name : String
deriving DecidableEq, Repr

/-! ## Header/variant resolver (`loggerdata/toa5/dataimport.py`) -/

/-- The exceptions `header_match` can raise.  `noTableMatch` and
`noVariantMatch` model the `importdefs` exception classes (whose
constructors require `md` resp. `tblmd` as keyword arguments);
`typeError` models a Python `TypeError`, in particular the one raised
when those constructors are called with a required argument missing. -/
inductive HmError where
  | noMetadataMatch (envline : EnvironmentLine)
  | multipleMetadataMatch
  | asdictTypeError
  | noTableMatch (md : Metadata) (table_name : String)
  | noVariantMatch (tblmd : MdTable)
  | typeError (message : String)
  | internalVariantLength
deriving DecidableEq, Repr

/-- Field-for-field matching of a `Toa5EnvMatch` pattern against an
observed environment line: every non-`None` pattern field must equal the
corresponding observed field (the `for k, v in asdict(...)` loop). -/
def emMatches (em : Toa5EnvMatch) (env : EnvironmentLine) : Bool :=
  (match em.station_name with | none => true | some v => env.station_name == v) &&
  (match em.logger_model with | none => true | some v => env.logger_model == v) &&
  (match em.logger_serial with | none => true | some v => env.logger_serial == v) &&
  (match em.logger_os with | none => true | some v => env.logger_os == v) &&
  (match em.program_name with | none => true | some v => env.program_name == v) &&
  (match em.program_sig with | none => true | some v => env.program_sig == v)

/-- One iteration of `header_match`'s metadata loop: non-TOA5 metadata
never matches; `dataclasses.asdict(None)` (an unset `toa5_env_match`)
raises `TypeError`. -/
def mdMatches (env : EnvironmentLine) (md : Metadata) : Except HmError Bool :=
  if md.logger_type = LoggerType.TOA5 then
    match md.toa5_env_match with
    | none => .error .asdictTypeError
    | some em => .ok (emMatches em env)
  else .ok false

/-- The `found` list accumulated by `header_match`. -/
def collectFound (env : EnvironmentLine) : List Metadata → Except HmError (List Metadata)
  | [] => .ok []
  | md :: rest => do
    let m ← mdMatches env md
    let r ← collectFound env rest
    .ok (if m then md :: r else r)

/-- `header_match`.  Note two deviations of the source from its own
exception classes: at the missing-table branch it evaluates
`NoTableMatch(repr(envline), table_name=...)` without the required
keyword argument `md`, and at the missing-variant branch it evaluates
`NoVariantMatch(message)` without the required keyword argument `tblmd`;
in both cases Python raises `TypeError` from the constructor call itself,
so the intended exception is never raised. -/
def header_match (envline : EnvironmentLine) (columns : List ColumnHeader)
    (metadatas : List Metadata) : Except HmError (MdTable × List Nat) := do
  let found ← collectFound envline metadatas
  match found with
  | [] => .error (.noMetadataMatch envline)
  | [md] =>
    match tablesLookup md.tables envline.table_name with
    | none => .error (.typeError "NoTableMatch.__init__() missing 1 required keyword-only argument: md")
    | some tblmd =>
      match lookupVariant tblmd.variants columns with
      | none => .error (.typeError "NoVariantMatch.__init__() missing 1 required keyword-only argument: tblmd")
      | some variant =>
        if variant.length ≠ columns.length then .error .internalVariantLength
        else .ok (tblmd, variant)
  | _ => .error .multipleMetadataMatch

/-! ## Loader variant-map construction (`load_logger_metadata`)

The fragment of `load_logger_metadata` that builds a table's variant map
from the declared variant-tag list and the columns (`tempvar` /
`tbl_vars` / the synthetic all-columns variant). -/

/-- `var is None or var == vn`: does a column belong to variant `vn`
(`none` being the implicit no-tag variant)? -/
def colInVariant (c : MdColumn) (vn : Option String) : Bool :=
  c.var == none || c.var == vn

/-- One `tempvar` entry: the ordered headers and logical indices of the
columns belonging to variant `vn`. -/
def tempvarEntry (cols : List MdColumn) (vn : Option String) :
    List ColumnHeader × List Nat :=
  let sel := cols.enum.filter (fun p => colInVariant p.2 vn)
  (sel.map (fun p => p.2.hdr), sel.map (fun p => p.1))

/-- The variant map built for one table: when some column carries a
variant tag, one entry per declared tag that is used (the first declared
tag always included), plus the synthetic all-columns variant; otherwise
the single all-columns entry. -/
def buildVariants (jsVariants : Option (List String)) (cols : List MdColumn) :
    List (List ColumnHeader × List Nat) :=
  let tblVars := cols.filterMap (·.var)
  match jsVariants with
  | some vs =>
    if !tblVars.isEmpty then
      (vs.filter (fun v => tblVars.contains v || vs.head? == some v)).map
          (fun v => tempvarEntry cols (some v)) ++
        [(cols.map (·.hdr), List.range cols.length)]
    else
      match vs.head? with
      | some v0 => [tempvarEntry cols (some v0)]
      | none => [tempvarEntry cols none]
  | none => [tempvarEntry cols none]

/-! ## Record engine (`loggerdata/importdefs.py`) -/

inductive DataFileType where
  | UNKNOWN | CSV | TOA5
deriving DecidableEq, Repr

structure Record where
  origrow : List String
  tblmd : MdTable
  variant : List Nat
  filenames : List String
  srcline : Nat
  filetype : DataFileType
deriving DecidableEq, Repr

/-- The exceptions `Record.typecheck` can raise: `zip(..., strict=True)`
raises `ValueError` on a length mismatch, an out-of-range variant index
raises `IndexError`, and a failed check raises
`TypeError(f"Column {col.tup}: value {val!r} does not match {col.type}")`
(modelled as carrying `col.tup` and the offending value). -/
inductive TcError where
  | zipStrictLengthMismatch
  | indexError
  | typeError (colTup : String × Option String × Option String) (val : String)
deriving DecidableEq, Repr

/-- The per-pair loop of `Record.typecheck`: columns without a declared
type are skipped. -/
def typecheckRow (columns : List MdColumn) : List (String × Nat) → Except TcError Unit
  | [] => .ok ()
  | (val, vi) :: rest =>
    match columns.get? vi with
    | none => .error .indexError
    | some col =>
      match col.type with
      | some t =>
        if !t.check val then .error (.typeError col.tup val)
        else typecheckRow columns rest
      | none => typecheckRow columns rest

/-- `Record.typecheck`: returns the record itself on success. -/
def Record.typecheck (r : Record) : Except TcError Record :=
  if r.origrow.length ≠ r.variant.length then .error .zipStrictLengthMismatch
  else (typecheckRow r.tblmd.columns (r.origrow.zip r.variant)).map fun _ => r

/-- `Record.fullrow`: scatter the physical row to the logical positions,
unmapped positions staying `None`. -/
def Record.fullrow (r : Record) : Except Unit (List (Option String)) :=
  if r.origrow.length ≠ r.variant.length then .error ()
  else .ok ((r.origrow.zip r.variant).foldl
    (fun acc p => acc.set p.2 (some p.1))
    (List.replicate r.tblmd.columns.length none))

/-- Option-valued map used by the `tzconv` model. -/
def mapOpt (f : α → Option β) : List α → Option (List β)
  | [] => some []
  | a :: rest =>
    match f a, mapOpt f rest with
    | some b, some bs => some (b :: bs)
    | _, _ => none

/-- Conversion of one physical value by `tzconv`: a `TimestampNoTz` value
is interpreted in the table's declared timezone (`tz`, an offset in
minutes), a `TimestampWithTz` value in its embedded offset; both are
shifted to UTC and re-rendered as `YYYY-MM-DD HH:MM:SSZ`; all other
values pass through unchanged. -/
def tzconvVal (columns : List MdColumn) (tz : Int) (val : String) (vi : Nat) :
    Option String :=
  match columns.get? vi with
  | none => none
  | some col =>
    match col.type with
    | some .TimestampNoTz =>
      (fromisoformatNoTz val).map fun dt => fmtTsZ (shiftMinutes dt (-tz))
    | some .TimestampWithTz =>
      (fromisoformatWithTz val).map fun p => fmtTsZ (shiftMinutes p.1 (-p.2))
    | _ => some val

/-- Modelled from the spec: `Record.tzconv` is described by the
specification ("produces a new Record where every `TimestampNoTz` value
is interpreted in the table's declared timezone and every
`TimestampWithTz` value is interpreted in its embedded offset, both
reformatted into a canonical UTC string with a trailing `Z`") but the
method itself is missing from the provided sources; `tz` is the table's
declared timezone as a UTC offset in minutes. -/
def Record.tzconv (r : Record) (tz : Int) : Option Record :=
  if r.origrow.length ≠ r.variant.length then none
  else (mapOpt (fun p => tzconvVal r.tblmd.columns tz p.1 p.2)
      (r.origrow.zip r.variant)).map fun nr => { r with origrow := nr }

/-! ## Concrete fixtures

A small concrete logger configuration, mirroring the repository's own
test metadata (`{"logger_name":"Foo", "toa5_env_match":
{"station_name":"Foo"}, "tables":{"foo":...}}`), used as the concrete
input of the witness theorems. -/

def witnessColTimestamp : MdColumn :=
  { name := "TIMESTAMP", unit := some "TS", type := some BaseType.TimestampNoTz }

def witnessColVal : MdColumn :=
  { name := "val", type := some BaseType.NonNegInt }

def witnessColumns : List MdColumn := [witnessColTimestamp, witnessColVal]

def witnessTable : MdTable :=
  { name := "foo", prikey := 0, interval := Interval.UNDEF,
    columns := witnessColumns,
    variants := buildVariants none witnessColumns }

def witnessMd : Metadata :=
  { logger_name := "Foo", tables := [("foo", witnessTable)],
    logger_type := LoggerType.TOA5,
    toa5_env_match := some { station_name := some "Foo" } }

def witnessEnv : EnvironmentLine :=
  { station_name := "Foo", logger_model := "", logger_serial := "",
    logger_os := "", program_name := "", program_sig := "",
    table_name := "foo" }

/-- The same observed file, but naming a table the metadata does not
declare. -/
def witnessEnvBadTable : EnvironmentLine :=
  { witnessEnv with table_name := "bar" }

/-- A row whose second value fails its declared `NonNegInt` check. -/
def witnessBadRecord : Record :=
  { origrow := ["2021-01-01 00:00:00", "abc"], tblmd := witnessTable,
    variant := [0, 1], filenames := [], srcline := 1,
    filetype := DataFileType.TOA5 }

/-- A row that typechecks. -/
def witnessGoodRecord : Record :=
  { origrow := ["2021-01-01 00:00:00", "5"], tblmd := witnessTable,
    variant := [0, 1], filenames := [], srcline := 1,
    filetype := DataFileType.TOA5 }

/-! ## `TypeInferrer` (`datatypes.py`)

The five candidate-hypothesis fields hold live type instances or `None`
in the source; since the instances carry no state, they are modelled as
Booleans ("hypothesis still alive"). -/

structure TypeInferrer where
  do_raise : Bool
  failed : Bool
  is_num : Bool
  num_prec : Int
  num_scale : Int
  nonnegint : Bool
  bigint : Bool
  timestamp : Bool
  timestamptz : Bool
  onlynan : Bool
deriving DecidableEq, Repr

/-- `TypeInferrer.__init__`. -/
def TypeInferrer.init (do_raise : Bool) : TypeInferrer :=
  { do_raise := do_raise, failed := false, is_num := true,
    num_prec := -1, num_scale := -1, nonnegint := true, bigint := true,
    timestamp := true, timestamptz := true, onlynan := true }

/-- The errors inference can raise: `send` raises
`TypeError("failed to infer type")`, `finish` raises `AssertionError`
when one of its internal assertions fails. -/
inductive InferError where
  | typeErrorFailedToInfer
  | assertionError
deriving DecidableEq, Repr

/-- `sum(c.isdigit() for c in s)`. -/
def countDigits (l : List Char) : Nat := (l.filter (·.isDigit)).length

/-- `TypeInferrer.send`. -/
def TypeInferrer.send (st : TypeInferrer) (string : String) :
    Except InferError TypeInferrer :=
  if st.failed then .ok st
  else
    let st1 := { st with
      nonnegint := st.nonnegint && BaseType.check .NonNegInt string,
      bigint := st.bigint && BaseType.check .BigInt string,
      onlynan := st.onlynan && BaseType.check .OnlyNan string,
      timestamp := st.timestamp && BaseType.check .TimestampNoTz string,
      timestamptz := st.timestamptz && BaseType.check .TimestampWithTz string }
    let st2 :=
      if st1.is_num then
        if strLower string ≠ "nan" ∧ ¬ baseNumRegexMatch string.data then
          { st1 with is_num := false }
        else
          let prec := max st1.num_prec (countDigits string.data : Int)
          let scale :=
            match string.data.findIdx? (· == '.') with
            | some i => max st1.num_scale (countDigits (string.data.drop i) : Int)
            | none => st1.num_scale
          { st1 with num_prec := prec, num_scale := scale }
      else st1
    if !(st2.is_num || st2.nonnegint || st2.bigint || st2.timestamp ||
         st2.timestamptz || st2.onlynan) then
      if st2.do_raise then .error .typeErrorFailedToInfer
      else .ok { st2 with failed := true }
    else .ok st2

/-- `TypeInferrer.finish`: `.ok none` models the documented `None` return
when inference failed with `do_raise=False`; a failed internal `assert`
is an `AssertionError`. -/
def TypeInferrer.finish (st : TypeInferrer) : Except InferError (Option BaseType) :=
  if st.failed then
    if st.do_raise then .error .assertionError else .ok none
  else if st.onlynan then
    if !st.timestamp && !st.timestamptz && st.nonnegint && st.bigint &&
       st.is_num && st.num_prec == 0 && st.num_scale == -1 then
      .ok (some .OnlyNan)
    else .error .assertionError
  else if st.nonnegint then
    if !st.timestamp && !st.timestamptz && st.bigint && st.is_num &&
       0 < st.num_prec && st.num_prec < 11 && st.num_scale < 1 then
      .ok (some .NonNegInt)
    else .error .assertionError
  else if st.bigint then
    if !st.timestamp && !st.timestamptz && !st.nonnegint && st.is_num &&
       0 < st.num_prec && st.num_prec < 20 && st.num_scale < 1 then
      .ok (some .BigInt)
    else .error .assertionError
  else if st.timestamp then
    if !st.timestamptz && !st.nonnegint && !st.is_num && !st.bigint then
      .ok (some .TimestampNoTz)
    else .error .assertionError
  else if st.timestamptz then
    if !st.timestamp && !st.nonnegint && !st.is_num && !st.bigint then
      .ok (some .TimestampWithTz)
    else .error .assertionError
  else if st.is_num then
    if !st.timestamp && !st.timestamptz && !st.nonnegint && !st.bigint &&
       0 < st.num_prec then
      if st.num_scale < 1 then .ok (some (.Num (some st.num_prec.toNat) none))
      else .ok (some (.Num (some st.num_prec.toNat) (some st.num_scale.toNat)))
    else .error .assertionError
  else .error .assertionError

/-- Fold `send` over a list of values. -/
def TypeInferrer.sendAll (st : TypeInferrer) : List String → Except InferError TypeInferrer
  | [] => .ok st
  | s :: rest => do
    let st1 ← st.send s
    st1.sendAll rest

/-- `TypeInferrer.run`. -/
def TypeInferrer.run (do_raise : Bool) (strings : List String) :
    Except InferError (Option BaseType) := do
  let st ← (TypeInferrer.init do_raise).sendAll strings
  st.finish

/-! ## Supporting lemmas -/

lemma tsCoreMatch_length {l : List Char} (h : tsCoreMatch l = true) :
    l.length = 19 := by
  unfold tsCoreMatch at h
  split at h
  · simp_all
  · cases h

lemma strLower_data (s : String) : (strLower s).data = s.data.map Char.toLower := rfl

lemma data_length_of_strLower_nan {s : String} (h : strLower s = "nan") :
    s.data.length = 3 := by
  have h2 : s.data.map Char.toLower = ['n', 'a', 'n'] := by
    have := congrArg String.data h
    simpa [strLower] using this
  have := congrArg List.length h2
  simpa using this

lemma ordPairs_cons (x : α) (l : List α) :
    ordPairs (x :: l) = l.map (fun y => (x, y)) ++ ordPairs l := rfl

lemma mem_ordPairs {l : List α} {x y : α} :
    (x, y) ∈ ordPairs l ↔
      ∃ i j, i < j ∧ l.get? i = some x ∧ l.get? j = some y := by
  induction l with
  | nil => simp [ordPairs]
  | cons a rest ih =>
    rw [ordPairs_cons, List.mem_append]
    constructor
    · rintro (hmap | htail)
      · rcases List.mem_map.mp hmap with ⟨y', hy', heq⟩
        obtain ⟨rfl, rfl⟩ : a = x ∧ y' = y := by
          constructor <;> simp_all
        rcases List.mem_iff_get?.mp hy' with ⟨j, hj⟩
        exact ⟨0, j + 1, Nat.succ_pos _, by simp, by simpa using hj⟩
      · rcases ih.mp htail with ⟨i, j, hij, hx, hy2⟩
        exact ⟨i + 1, j + 1, Nat.succ_lt_succ hij, by simpa using hx,
          by simpa using hy2⟩
    · rintro ⟨i, j, hij, hx, hy2⟩
      match i, j, hij with
      | 0, j + 1, _ =>
        left
        have hax : a = x := by simpa using hx
        have hymem : y ∈ rest := List.mem_iff_get?.mpr ⟨j, by simpa using hy2⟩
        exact List.mem_map.mpr ⟨y, hymem, by rw [hax]⟩
      | i + 1, j + 1, hij =>
        right
        exact ih.mpr ⟨i, j, by omega, by simpa using hx, by simpa using hy2⟩

lemma splitDot_none : ∀ {l ip : List Char}, splitDot l = (ip, none) → l = ip := by
  intro l
  induction l with
  | nil =>
    intro ip h
    unfold splitDot at h
    injection h with h1 _
  | cons c rest ih =>
    intro ip h
    unfold splitDot at h
    by_cases hc : c = '.'
    · rw [if_pos hc] at h
      injection h with _ h2
      cases h2
    · rw [if_neg hc] at h
      rcases hrest : splitDot rest with ⟨ip1, fp1⟩
      rw [hrest] at h
      injection h with h1 h2
      subst h2
      rw [← h1, ih hrest]

lemma splitDot_some : ∀ {l ip fp : List Char},
    splitDot l = (ip, some fp) → l = ip ++ '.' :: fp := by
  intro l
  induction l with
  | nil =>
    intro ip fp h
    unfold splitDot at h
    injection h with _ h2
    cases h2
  | cons c rest ih =>
    intro ip fp h
    unfold splitDot at h
    by_cases hc : c = '.'
    · rw [if_pos hc] at h
      injection h with h1 h2
      injection h2 with h2
      subst hc
      rw [← h1, ← h2]
      rfl
    · rw [if_neg hc] at h
      rcases hrest : splitDot rest with ⟨ip1, fp1⟩
      rw [hrest] at h
      injection h with h1 h2
      subst h2
      rw [← h1, List.cons_append, ih hrest]

lemma stripNeg_cases (l : List Char) : stripNeg l = l ∨ l = '-' :: stripNeg l := by
  unfold stripNeg
  split
  · right
    rfl
  · left
    rfl

lemma takeWhile_digits_append (ip rest : List Char)
    (hip : ip.all (·.isDigit) = true)
    (hrest : ∀ c cs, rest = c :: cs → c.isDigit = false) :
    (ip ++ rest).takeWhile (·.isDigit) = ip := by
  induction ip with
  | nil =>
    cases rest with
    | nil => rfl
    | cons c cs => simp [List.takeWhile_cons, hrest c cs rfl]
  | cons a as ih =>
    rw [List.all_cons] at hip
    simp only [Bool.and_eq_true] at hip
    simp [List.takeWhile_cons, hip.1, ih hip.2]

lemma dropWhile_digits_append (ip rest : List Char)
    (hip : ip.all (·.isDigit) = true)
    (hrest : ∀ c cs, rest = c :: cs → c.isDigit = false) :
    (ip ++ rest).dropWhile (·.isDigit) = rest := by
  induction ip with
  | nil =>
    cases rest with
    | nil => rfl
    | cons c cs => simp [List.dropWhile_cons, hrest c cs rfl]
  | cons a as ih =>
    rw [List.all_cons] at hip
    simp only [Bool.and_eq_true] at hip
    simp [List.dropWhile_cons, hip.1, ih hip.2]

lemma span_digits_append (ip rest : List Char)
    (hip : ip.all (·.isDigit) = true)
    (hrest : ∀ c cs, rest = c :: cs → c.isDigit = false) :
    (ip ++ rest).span (·.isDigit) = (ip, rest) := by
  rw [List.span_eq_take_drop,
    takeWhile_digits_append ip rest hip hrest,
    dropWhile_digits_append ip rest hip hrest]

lemma all_zeros_digits {l : List Char} (h : l.all (· == '0') = true) :
    l.all (·.isDigit) = true := by
  rw [List.all_eq_true] at h ⊢
  intro c hc
  have h0 := h c hc
  have : c = '0' := by simpa using h0
  subst this
  decide

lemma expPartAccepts_nil : expPartAccepts [] = true := rfl

lemma unsignedNumericAccepts_parts {ip : List Char} {fp : Option (List Char)}
    (hip : ip.all (·.isDigit) = true)
    (hfp : ∀ f, fp = some f → f.all (·.isDigit) = true)
    (hne1 : ¬(ip = [] ∧ fp = none)) (hne2 : ¬(ip = [] ∧ fp = some [])) :
    unsignedNumericAccepts (ip ++ fpSuffix fp) = true := by
  cases fp with
  | none =>
    have hspan := span_digits_append ip [] hip (by intro c cs h; cases h)
    have hne : ip ≠ [] := fun h => hne1 ⟨h, rfl⟩
    unfold unsignedNumericAccepts fpSuffix
    rw [hspan]
    simp [hne, expPartAccepts]
  | some f =>
    have hf := hfp f rfl
    have hspan := span_digits_append ip ('.' :: f) hip
      (by intro c cs h; injection h with h1 _; rw [← h1]; decide)
    have hspanf := span_digits_append f [] hf (by intro c cs h; cases h)
    rw [List.append_nil] at hspanf
    unfold unsignedNumericAccepts fpSuffix
    rw [hspan]
    simp only
    rw [hspanf]
    by_cases hipe : ip = []
    · have hfe : f ≠ [] := fun h => hne2 ⟨hipe, by rw [h]⟩
      simp [hipe, hfe, expPartAccepts]
    · simp [hipe, expPartAccepts]

lemma parts_of_baseNum {l : List Char} (h : baseNumRegexMatch l = true) :
    ∃ ip fp, splitDot (stripNeg l) = (ip, fp) ∧ ip.all (·.isDigit) = true ∧
      (∀ f, fp = some f → f.all (·.isDigit) = true) ∧
      numLookaheadExcluded l = false := by
  unfold baseNumRegexMatch at h
  by_cases hexcl : numLookaheadExcluded l = true
  · rw [if_pos hexcl] at h
    cases h
  · have hexcl' : numLookaheadExcluded l = false := by
      simpa using hexcl
    rw [hexcl'] at h
    simp only [Bool.false_eq_true, if_false] at h
    rcases hsd : splitDot (stripNeg l) with ⟨ip, fp⟩
    rw [hsd] at h
    cases fp with
    | none =>
      simp only [Bool.and_eq_true] at h
      refine ⟨ip, none, rfl, h.1, ?_, hexcl'⟩
      intro f hf
      cases hf
    | some f =>
      simp only [Bool.and_eq_true] at h
      refine ⟨ip, some f, rfl, h.1, ?_, hexcl'⟩
      intro g hg
      injection hg with hg
      rw [← hg]
      exact h.2

lemma parts_of_constrained {pp scc : Nat} {l : List Char}
    (h : constrainedNumRegexMatch pp scc l = true) :
    ∃ ip fp, splitDot (stripNeg l) = (ip, fp) ∧ ip.all (·.isDigit) = true ∧
      (∀ f, fp = some f → f.all (·.isDigit) = true) ∧
      numLookaheadExcluded l = false := by
  unfold constrainedNumRegexMatch at h
  by_cases hexcl : numLookaheadExcluded l = true
  · rw [if_pos hexcl] at h
    cases h
  · have hexcl' : numLookaheadExcluded l = false := by
      simpa using hexcl
    rw [hexcl'] at h
    simp only [Bool.false_eq_true, if_false] at h
    rcases hsd : splitDot (stripNeg l) with ⟨ip, fp⟩
    rw [hsd] at h
    have hipd : ip.all (·.isDigit) = true := by
      cases fp with
      | none =>
        simp only [Bool.and_eq_true] at h
        have h1 := h.1
        by_cases hps : pp - scc > 0
        · rw [if_pos hps] at h1
          rw [Bool.and_eq_true] at h1
          exact h1.1
        · rw [if_neg hps] at h1
          exact all_zeros_digits h1
      | some f =>
        simp only [Bool.and_eq_true] at h
        have h1 := h.1
        by_cases hps : pp - scc > 0
        · rw [if_pos hps] at h1
          rw [Bool.and_eq_true] at h1
          exact h1.1
        · rw [if_neg hps] at h1
          exact all_zeros_digits h1
    refine ⟨ip, fp, rfl, hipd, ?_, hexcl'⟩
    intro f hf
    subst hf
    simp only [Bool.and_eq_true] at h
    have h2 := h.2
    by_cases hs : scc > 0
    · rw [if_pos hs] at h2
      rw [Bool.and_eq_true] at h2
      exact h2.1
    · rw [if_neg hs] at h2
      exact all_zeros_digits h2

lemma parts_nonempty {l ip : List Char} {fp : Option (List Char)}
    (hexcl : numLookaheadExcluded l = false)
    (hsd : splitDot (stripNeg l) = (ip, fp)) :
    ¬(ip = [] ∧ fp = none) ∧ ¬(ip = [] ∧ fp = some []) := by
  constructor
  · rintro ⟨rfl, rfl⟩
    have h1 : stripNeg l = [] := splitDot_none hsd
    rcases stripNeg_cases l with hc | hc
    · rw [hc] at h1
      rw [h1] at hexcl
      cases hexcl
    · rw [h1] at hc
      rw [hc] at hexcl
      cases hexcl
  · rintro ⟨rfl, rfl⟩
    have h1 : stripNeg l = ['.'] := splitDot_some hsd
    rcases stripNeg_cases l with hc | hc
    · rw [hc] at h1
      rw [h1] at hexcl
      cases hexcl
    · rw [h1] at hc
      rw [hc] at hexcl
      cases hexcl

lemma pyAccepts_of_nan {s : String} (h : strLower s = "nan") :
    pyNumericLiteralAccepts s = true := by
  have hd : (strLower s).data = ['n', 'a', 'n'] := by rw [h]
  simp [pyNumericLiteralAccepts, hd, stripSign]

lemma pyAccepts_of_shape {s : String} {ip : List Char} {fp : Option (List Char)}
    (hsd : splitDot (stripNeg s.data) = (ip, fp))
    (hip : ip.all (·.isDigit) = true)
    (hfp : ∀ f, fp = some f → f.all (·.isDigit) = true)
    (hexcl : numLookaheadExcluded s.data = false) :
    pyNumericLiteralAccepts s = true := by
  obtain ⟨hne1, hne2⟩ := parts_nonempty hexcl hsd
  have hl1 : stripNeg s.data = ip ++ fpSuffix fp := by
    cases fp with
    | none =>
      have h0 := splitDot_none hsd
      simpa [fpSuffix] using h0
    | some f =>
      have h0 := splitDot_some hsd
      simpa [fpSuffix] using h0
  have hacc := unsignedNumericAccepts_parts hip hfp hne1 hne2
  rw [← hl1] at hacc
  have hss : stripSign s.data = stripNeg s.data := by
    rcases stripNeg_cases s.data with hc | hc
    · rw [hc]
      cases hsdata : s.data with
      | nil => rfl
      | cons c r =>
        have h2 : ip ++ fpSuffix fp = c :: r := by
          rw [← hl1, hc, hsdata]
        have hhead : c.isDigit = true ∨ c = '.' := by
          cases ip with
          | nil =>
            cases fp with
            | none => simp [fpSuffix] at h2
            | some f =>
              right
              simp [fpSuffix] at h2
              exact h2.1.symm
          | cons d ds =>
            left
            simp at h2
            rw [List.all_cons, Bool.and_eq_true] at hip
            rw [← h2.1]
            exact hip.1
        have hplus : c ≠ '+' := by
          rcases hhead with hd | hd
          · intro hh
            rw [hh] at hd
            exact absurd hd (by decide)
          · rw [hd]
            decide
        have hminus : c ≠ '-' := by
          rcases hhead with hd | hd
          · intro hh
            rw [hh] at hd
            exact absurd hd (by decide)
          · rw [hd]
            decide
        simp [stripSign, hplus, hminus]
    · generalize hx : stripNeg s.data = x at hc ⊢
      rw [hc]
      simp [stripSign]
  unfold pyNumericLiteralAccepts
  rw [hss]
  simp [hacc]

lemma pyAccepts_of_num_check {p sc : Option Nat} {s : String}
    (h : BaseType.check (.Num p sc) s = true) :
    pyNumericLiteralAccepts s = true := by
  by_cases hnan : strLower s = "nan"
  · exact pyAccepts_of_nan hnan
  · cases p with
    | none =>
      have h1 : (if strLower s = "nan" then true
          else baseNumRegexMatch s.data) = true := h
      rw [if_neg hnan] at h1
      obtain ⟨ip, fp, hsd, hip, hfp, hexcl⟩ := parts_of_baseNum h1
      exact pyAccepts_of_shape hsd hip hfp hexcl
    | some pp =>
      have h1 : (if strLower s = "nan" then true
          else constrainedNumRegexMatch pp (sc.getD 0) s.data) = true := h
      rw [if_neg hnan] at h1
      obtain ⟨ip, fp, hsd, hip, hfp, hexcl⟩ := parts_of_constrained h1
      exact pyAccepts_of_shape hsd hip hfp hexcl

lemma digitsToNat_append_single (xs : List Char) (c : Char) :
    digitsToNat (xs ++ [c]) = digitsToNat xs * 10 + (c.toNat - '0'.toNat) := by
  unfold digitsToNat
  rw [List.foldl_append]
  rfl

lemma digitChar_toNat {d : Nat} (h : d < 10) :
    (Nat.digitChar d).toNat - '0'.toNat = d := by
  interval_cases d <;> rfl

lemma digitChar_isDigit {d : Nat} (h : d < 10) :
    (Nat.digitChar d).isDigit = true := by
  interval_cases d <;> rfl

lemma natToDigitsAux_spec : ∀ fuel n, n < fuel →
    (natToDigitsAux n fuel).all (·.isDigit) = true ∧
    natToDigitsAux n fuel ≠ [] ∧
    digitsToNat (natToDigitsAux n fuel) = n := by
  intro fuel
  induction fuel with
  | zero => intro n h; omega
  | succ f ih =>
    intro n h
    unfold natToDigitsAux
    by_cases h10 : n < 10
    · rw [if_pos h10]
      refine ⟨by simp [digitChar_isDigit h10], by simp, ?_⟩
      show digitsToNat ([] ++ [Nat.digitChar n]) = n
      rw [digitsToNat_append_single, digitChar_toNat h10]
      simp [digitsToNat]
    · rw [if_neg h10]
      have hpos : 0 < n := by omega
      have hdiv : n / 10 < n := Nat.div_lt_self hpos (by omega)
      have hn10 : n / 10 < f := by omega
      obtain ⟨ha, hne, hval⟩ := ih (n / 10) hn10
      have hmod : n % 10 < 10 := Nat.mod_lt _ (by omega)
      refine ⟨?_, by simp, ?_⟩
      · rw [List.all_append]
        simp [ha, digitChar_isDigit hmod]
      · rw [digitsToNat_append_single, hval, digitChar_toNat hmod]
        omega

lemma isEmpty_false_of_ne_nil {l : List α} (h : l ≠ []) : l.isEmpty = false := by
  cases l with
  | nil => exact absurd rfl h
  | cons a t => rfl

/-- A list starting `Num(` never equals the character data of a string
whose first four characters differ from `Num(`. -/
lemma numParen_ne (rest : List Char) (lit : String)
    (hlit : lit.data.take 4 ≠ ['N', 'u', 'm', '(']) :
    'N' :: 'u' :: 'm' :: '(' :: rest ≠ lit.data := by
  intro h
  apply hlit
  rw [← h]
  rfl

lemma parseNumSpec_one (ds : List Char) (hall : ds.all (·.isDigit) = true)
    (hne : ds ≠ []) :
    parseNumSpec ('N' :: 'u' :: 'm' :: '(' :: (ds ++ [')'])) =
      some (some (digitsToNat ds), none) := by
  have hp : ∀ c cs, [')'] = c :: cs → c.isDigit = false := by
    intro c cs h
    injection h with h1 _
    rw [← h1]
    decide
  show parseNumInner (ds ++ [')']) = _
  unfold parseNumInner
  rw [takeWhile_digits_append ds [')'] hall hp,
    dropWhile_digits_append ds [')'] hall hp]
  dsimp only
  rw [isEmpty_false_of_ne_nil hne]
  simp

lemma parseNumSpec_two (ds1 ds2 : List Char)
    (hall1 : ds1.all (·.isDigit) = true) (hne1 : ds1 ≠ [])
    (hall2 : ds2.all (·.isDigit) = true) (hne2 : ds2 ≠ []) :
    parseNumSpec ('N' :: 'u' :: 'm' :: '(' :: (ds1 ++ ',' :: (ds2 ++ [')']))) =
      some (some (digitsToNat ds1), some (digitsToNat ds2)) := by
  have hp : ∀ c cs, [')'] = c :: cs → c.isDigit = false := by
    intro c cs h
    injection h with h1 _
    rw [← h1]
    decide
  have hc : ∀ c cs, ',' :: (ds2 ++ [')']) = c :: cs → c.isDigit = false := by
    intro c cs h
    injection h with h1 _
    rw [← h1]
    decide
  show parseNumInner (ds1 ++ ',' :: (ds2 ++ [')'])) = _
  unfold parseNumInner
  rw [takeWhile_digits_append ds1 (',' :: (ds2 ++ [')'])) hall1 hc,
    dropWhile_digits_append ds1 (',' :: (ds2 ++ [')'])) hall1 hc]
  dsimp only
  rw [isEmpty_false_of_ne_nil hne1]
  simp only [Bool.false_eq_true, if_false]
  rw [takeWhile_digits_append ds2 [')'] hall2 hp,
    dropWhile_digits_append ds2 [')'] hall2 hp,
    isEmpty_false_of_ne_nil hne2]
  simp

lemma typecheckRow_error (columns : List MdColumn) :
    ∀ (pairs : List (String × Nat)) (i : Nat) (hi : i < pairs.length)
      (col : MdColumn) (t : BaseType),
      columns.get? (pairs.get ⟨i, hi⟩).2 = some col →
      col.type = some t →
      t.check (pairs.get ⟨i, hi⟩).1 = false →
      (∀ j (hj : j < pairs.length), j < i →
        ∃ col2, columns.get? (pairs.get ⟨j, hj⟩).2 = some col2 ∧
          ∀ t2, col2.type = some t2 → t2.check (pairs.get ⟨j, hj⟩).1 = true) →
      typecheckRow columns pairs =
        .error (.typeError col.tup (pairs.get ⟨i, hi⟩).1) := by
  intro pairs
  induction pairs with
  | nil =>
    intro i hi col t hcol ht hfail hfirst
    simp at hi
  | cons pr rest ih =>
    rcases pr with ⟨val, vi⟩
    intro i hi col t hcol ht hfail hfirst
    cases i with
    | zero =>
      unfold typecheckRow
      rw [show columns.get? vi = some col from hcol]
      dsimp only
      rw [ht]
      dsimp only
      rw [show t.check val = false from hfail]
      rfl
    | succ i0 =>
      obtain ⟨col2, hcol2, hchk⟩ := hfirst 0 (by omega) (by omega)
      have hrec := ih i0 (Nat.lt_of_succ_lt_succ hi) col t hcol ht hfail
        (by
          intro j hj hlt
          exact hfirst (j + 1) (Nat.succ_lt_succ hj) (Nat.succ_lt_succ hlt))
      unfold typecheckRow
      rw [show columns.get? vi = some col2 from hcol2]
      dsimp only
      cases htype : col2.type with
      | none => exact hrec
      | some t2 =>
        dsimp only
        rw [show t2.check val = true from hchk t2 htype]
        exact hrec

/-! ## Claim theorems -/

/-- C8 (counterexample): two identical, non-degenerate time ranges in one
set contain (and overlap) each other, yet `validate_set` accepts the set
without raising. -/
theorem c8_validate_set_counterexample :
    dtLt (⟨2021, 1, 1, 0, 0, 0, 0⟩ : DateTime) ⟨2021, 1, 5, 0, 0, 0, 0⟩ = true ∧
    validate_set
      [⟨"maintenance", ⟨2021, 1, 1, 0, 0, 0, 0⟩, some ⟨2021, 1, 5, 0, 0, 0, 0⟩⟩,
       ⟨"maintenance", ⟨2021, 1, 1, 0, 0, 0, 0⟩, some ⟨2021, 1, 5, 0, 0, 0, 0⟩⟩] =
      .ok () := by decide

/-- C8 (amended): `TimeRange.validate_set` raises exactly when some pair
`(x, y)`, with `x` before `y` in the declared sequence, satisfies the
source's `bad` test (`badPair`): for two ranges, `y`'s start or `y`'s end
strictly inside `x`, or both of `x`'s endpoints strictly inside `y`; for
a range and a point, the point strictly inside the range; for two points,
equal instants.  Overlapping ranges that share their start point (such as
two identical ranges) are not detected. -/
theorem c8_validate_set_characterization (ranges : List TimeRange) :
    validate_set ranges = .ok () ↔
      ∀ i j x y, i < j → ranges.get? i = some x → ranges.get? j = some y →
        badPair x y = false := by
  unfold validate_set
  rcases hfind : (ordPairs ranges).find? (fun p => badPair p.1 p.2) with _ | p
  · simp only [hfind]
    constructor
    · intro _ i j x y hij hx hy
      have hall := List.find?_eq_none.mp hfind (x, y)
        (mem_ordPairs.mpr ⟨i, j, hij, hx, hy⟩)
      simpa using hall
    · intro _
      trivial
  · simp only [hfind]
    constructor
    · intro h
      cases h
    · intro hall
      exfalso
      have hbad : badPair p.1 p.2 = true := by
        simpa using List.find?_some hfind
      have hmem := List.mem_of_find?_eq_some hfind
      rcases mem_ordPairs.mp (by simpa using hmem) with ⟨i, j, hij, hx, hy⟩
      have := hall i j p.1 p.2 hij hx hy
      rw [this] at hbad
      cases hbad

/-- C8 (witness): the characterization applied to a concrete
two-element set that `validate_set` accepts. -/
theorem c8_validate_set_witness :
    badPair ⟨"a", ⟨2021, 1, 1, 0, 0, 0, 0⟩, some ⟨2021, 1, 2, 0, 0, 0, 0⟩⟩
      ⟨"b", ⟨2021, 2, 1, 0, 0, 0, 0⟩, some ⟨2021, 2, 2, 0, 0, 0, 0⟩⟩ = false :=
  (c8_validate_set_characterization
    [⟨"a", ⟨2021, 1, 1, 0, 0, 0, 0⟩, some ⟨2021, 1, 2, 0, 0, 0, 0⟩⟩,
     ⟨"b", ⟨2021, 2, 1, 0, 0, 0, 0⟩, some ⟨2021, 2, 2, 0, 0, 0, 0⟩⟩]).mp
    (by decide) 0 1 _ _ (by decide) rfl rfl

/-- C9: with the 15-minute interval, `check_timeseq_strict` classifies
the sequence `12:00, 12:15, 12:45, 13:00` (one day) as
`GOOD, GOOD, UNUSUAL, GOOD`: the `12:15 → 12:45` step is a floor-aligned
gap, not corruption. -/
theorem c9_check_timeseq_strict_scenario :
    check_timeseq_strict
      [⟨2021, 6, 18, 12, 0, 0, 0⟩, ⟨2021, 6, 18, 12, 15, 0, 0⟩,
       ⟨2021, 6, 18, 12, 45, 0, 0⟩, ⟨2021, 6, 18, 13, 0, 0, 0⟩]
      Interval.MIN15 =
      [.GOOD, .GOOD, .UNUSUAL, .GOOD] := by decide

/-- C10: on an empty value stream (a fresh `TypeInferrer` with no `send`
calls, or `run` on an empty sequence) every candidate hypothesis is still
alive, yet `finish` raises `AssertionError` instead of returning a data
type, for either `do_raise` setting. -/
theorem c10_inferrer_empty_stream :
    ((TypeInferrer.init true).onlynan = true ∧
     (TypeInferrer.init true).nonnegint = true ∧
     (TypeInferrer.init true).bigint = true ∧
     (TypeInferrer.init true).timestamp = true ∧
     (TypeInferrer.init true).timestamptz = true ∧
     (TypeInferrer.init true).is_num = true ∧
     (TypeInferrer.init true).failed = false) ∧
    TypeInferrer.finish (TypeInferrer.init true) = .error .assertionError ∧
    TypeInferrer.finish (TypeInferrer.init false) = .error .assertionError ∧
    TypeInferrer.run true [] = .error .assertionError ∧
    TypeInferrer.run false [] = .error .assertionError := by decide

lemma reprStr_num_one_data (p : Nat) :
    (BaseType.reprStr (.Num (some p) none)).data =
      'N' :: 'u' :: 'm' :: '(' :: (natToDigitsAux p (p + 1) ++ [')']) := by
  show ("Num(" ++ natToStr p ++ ")").data = _
  have h1 : ("Num(" ++ natToStr p ++ ")").data =
      "Num(".data ++ (natToStr p).data ++ ")".data := rfl
  rw [h1]
  show ['N', 'u', 'm', '('] ++ natToDigitsAux p (p + 1) ++ [')'] = _
  simp

lemma reprStr_num_two_data (p s0 : Nat) :
    (BaseType.reprStr (.Num (some p) (some s0))).data =
      'N' :: 'u' :: 'm' :: '(' ::
        (natToDigitsAux p (p + 1) ++ ',' :: (natToDigitsAux s0 (s0 + 1) ++ [')'])) := by
  show ("Num(" ++ natToStr p ++ "," ++ natToStr s0 ++ ")").data = _
  have h1 : ("Num(" ++ natToStr p ++ "," ++ natToStr s0 ++ ")").data =
      "Num(".data ++ (natToStr p).data ++ ",".data ++ (natToStr s0).data ++ ")".data := rfl
  rw [h1]
  show ['N', 'u', 'm', '('] ++ natToDigitsAux p (p + 1) ++ [','] ++
    natToDigitsAux s0 (s0 + 1) ++ [')'] = _
  simp

/-- C7 (counterexample): `Num(05)` is parsed successfully by
`from_string` (the regex accepts leading zeros in the digit groups), but
the parsed value prints back as `Num(5)`, so stringification does not
invert parsing on it. -/
theorem c7_roundtrip_counterexample :
    from_string "Num(05)" = .ok (.Num (some 5) none) ∧
    BaseType.reprStr (.Num (some 5) none) ≠ "Num(05)" := by decide

/-- C7 (amended): parsing and stringification are mutual inverses on
canonically written spec strings: for every constructible type value `t`,
`from_string (repr t) = t`, so stringification is a right inverse of
parsing exactly on the image of `repr` (spec strings whose digit groups
carry no leading zeros). -/
theorem c7_spec_string_roundtrip (t : BaseType) (h : t.valid = true) :
    from_string t.reprStr = .ok t := by
  cases t with
  | NonNegInt => decide
  | BigInt => decide
  | TimestampNoTz => decide
  | TimestampWithTz => decide
  | OnlyNan => decide
  | Ignore => decide
  | Num p sc =>
    cases p with
    | none =>
      cases sc with
      | none => decide
      | some s0 =>
        simp [BaseType.valid, numArgsValid] at h
    | some pp =>
      have hv : 1 ≤ pp ∧ pp ≤ 1000 ∧ sc.getD 0 ≤ pp := by
        simp [BaseType.valid, numArgsValid, Bool.and_eq_true] at h
        omega
      obtain ⟨hall, hne, hval⟩ := natToDigitsAux_spec (pp + 1) pp (by omega)
      cases sc with
      | none =>
        have hdata := reprStr_num_one_data pp
        unfold from_string
        rw [hdata,
          if_neg (numParen_ne _ "NonNegInt" (by decide)),
          if_neg (numParen_ne _ "BigInt" (by decide)),
          if_neg (numParen_ne _ "TimestampNoTz" (by decide)),
          if_neg (numParen_ne _ "TimestampWithTz" (by decide)),
          if_neg (numParen_ne _ "OnlyNan" (by decide)),
          if_neg (numParen_ne _ "Ignore" (by decide)),
          parseNumSpec_one _ hall hne, hval]
        unfold mkNum
        dsimp only
        rw [if_neg (by simp; omega)]
        rw [if_neg (by simp)]
      | some s0 =>
        simp only [Option.getD_some] at hv
        obtain ⟨hall2, hne2, hval2⟩ := natToDigitsAux_spec (s0 + 1) s0 (by omega)
        have hdata := reprStr_num_two_data pp s0
        unfold from_string
        rw [hdata,
          if_neg (numParen_ne _ "NonNegInt" (by decide)),
          if_neg (numParen_ne _ "BigInt" (by decide)),
          if_neg (numParen_ne _ "TimestampNoTz" (by decide)),
          if_neg (numParen_ne _ "TimestampWithTz" (by decide)),
          if_neg (numParen_ne _ "OnlyNan" (by decide)),
          if_neg (numParen_ne _ "Ignore" (by decide)),
          parseNumSpec_two _ _ hall hne hall2 hne2, hval, hval2]
        unfold mkNum
        dsimp only
        rw [if_neg (by simp; omega)]
        rw [if_neg (by simp; omega)]

/-- C7 (witness): the round trip at the concrete value `Num(5,3)`. -/
theorem c7_spec_string_roundtrip_witness :
    from_string (BaseType.reprStr (.Num (some 5) (some 3))) =
      .ok (.Num (some 5) (some 3)) :=
  c7_spec_string_roundtrip (.Num (some 5) (some 3)) (by decide)

/-- C4: for a record whose row length matches its variant and whose
earlier positions pass their checks, a position whose column declares a
scalar type and whose raw (pre-scatter) value fails that type's `check`
makes `Record.typecheck` raise a `TypeError` carrying exactly that
column's identifying triple (`col.tup`) and the offending value. -/
theorem c4_typecheck_names_offender (r : Record)
    (hlen : r.origrow.length = r.variant.length)
    (i : Nat) (hi : i < (r.origrow.zip r.variant).length)
    (col : MdColumn) (t : BaseType)
    (hcol : r.tblmd.columns.get? ((r.origrow.zip r.variant).get ⟨i, hi⟩).2 = some col)
    (ht : col.type = some t)
    (hfail : t.check ((r.origrow.zip r.variant).get ⟨i, hi⟩).1 = false)
    (hfirst : ∀ j (hj : j < (r.origrow.zip r.variant).length), j < i →
      ∃ col2,
        r.tblmd.columns.get? ((r.origrow.zip r.variant).get ⟨j, hj⟩).2 = some col2 ∧
        ∀ t2, col2.type = some t2 →
          t2.check ((r.origrow.zip r.variant).get ⟨j, hj⟩).1 = true) :
    r.typecheck =
      .error (.typeError col.tup ((r.origrow.zip r.variant).get ⟨i, hi⟩).1) := by
  unfold Record.typecheck
  rw [if_neg (by simp [hlen])]
  rw [typecheckRow_error r.tblmd.columns (r.origrow.zip r.variant) i hi col t
    hcol ht hfail hfirst]
  rfl

/-- C4 (witness): the concrete record whose second value `abc` fails the
declared `NonNegInt` check; `typecheck` reports the second column's
triple and the value. -/
theorem c4_typecheck_names_offender_witness :
    Record.typecheck witnessBadRecord =
      .error (.typeError ("val", none, none) "abc") := by
  have h := c4_typecheck_names_offender witnessBadRecord (by decide) 1 (by decide)
    witnessColVal .NonNegInt
    (by decide) (by decide) (by decide)
    (by
      intro j hj hlt
      match j, hlt with
      | 0, _ =>
        refine ⟨witnessColTimestamp, ?_, ?_⟩
        · show witnessColumns.get? 0 = some witnessColTimestamp
          decide
        · intro t2 ht2
          have h3 : some BaseType.TimestampNoTz = some t2 := ht2
          injection h3 with h3
          rw [← h3]
          show BaseType.check .TimestampNoTz "2021-01-01 00:00:00" = true
          decide)
  exact h

/-- Every variant map built by `load_logger_metadata` is
length-consistent: each entry's index tuple is as long as its header
tuple (the internal consistency invariant `header_match` checks). -/
lemma buildVariants_wf (jsVariants : Option (List String)) (cols : List MdColumn) :
    ∀ e ∈ buildVariants jsVariants cols, e.1.length = e.2.length := by
  intro e he
  have htemp : ∀ vn, (tempvarEntry cols vn).1.length = (tempvarEntry cols vn).2.length := by
    intro vn
    simp [tempvarEntry]
  unfold buildVariants at he
  dsimp only at he
  cases jsVariants with
  | none =>
    simp at he
    rw [he]
    exact htemp none
  | some vs =>
    by_cases htv : (cols.filterMap (fun c => c.var)).isEmpty
    · rw [htv] at he
      simp at he
      cases hv0 : vs.head? with
      | none =>
        rw [hv0] at he
        simp at he
        rw [he]
        exact htemp none
      | some v0 =>
        rw [hv0] at he
        simp at he
        rw [he]
        exact htemp (some v0)
    · have htv' : (cols.filterMap (fun c => c.var)).isEmpty = false := by
        simpa using htv
      rw [htv'] at he
      simp at he
      rcases he with ⟨v, _, hev⟩ | he2
      · rw [← hev]
        exact htemp (some v)
      · rw [he2]
        simp

/-- C3: once exactly one metadata has matched and the table is found, a
header tuple that is a key of the table's (length-consistent) variant map
makes `header_match` return that table with the stored index tuple, whose
length equals the header tuple's; a header tuple that is not a key makes
`header_match` raise — but, because the source omits the required `tblmd`
keyword argument when constructing `NoVariantMatch`, the exception
actually raised is the `TypeError` from that constructor call, never a
`NoVariantMatch`. -/
theorem c3_variant_resolution (env : EnvironmentLine)
    (columns : List ColumnHeader) (metadatas : List Metadata)
    (md : Metadata) (tblmd : MdTable)
    (hfound : collectFound env metadatas = .ok [md])
    (htbl : tablesLookup md.tables env.table_name = some tblmd)
    (hwf : ∀ e ∈ tblmd.variants, e.1.length = e.2.length) :
    (∀ v, lookupVariant tblmd.variants columns = some v →
        header_match env columns metadatas = .ok (tblmd, v) ∧
        v.length = columns.length) ∧
    (lookupVariant tblmd.variants columns = none →
        header_match env columns metadatas =
          .error (.typeError
            "NoVariantMatch.__init__() missing 1 required keyword-only argument: tblmd") ∧
        ∀ tb : MdTable, header_match env columns metadatas ≠
          .error (.noVariantMatch tb)) := by
  have hm : header_match env columns metadatas =
      (match lookupVariant tblmd.variants columns with
       | none => .error (.typeError
           "NoVariantMatch.__init__() missing 1 required keyword-only argument: tblmd")
       | some variant =>
         if variant.length ≠ columns.length then .error .internalVariantLength
         else .ok (tblmd, variant)) := by
    unfold header_match
    rw [hfound]
    show (match [md] with
      | [] => Except.error (HmError.noMetadataMatch env)
      | [md] =>
        match tablesLookup md.tables env.table_name with
        | none => Except.error (HmError.typeError
            "NoTableMatch.__init__() missing 1 required keyword-only argument: md")
        | some tblmd =>
          match lookupVariant tblmd.variants columns with
          | none => Except.error (HmError.typeError
              "NoVariantMatch.__init__() missing 1 required keyword-only argument: tblmd")
          | some variant =>
            if variant.length ≠ columns.length then Except.error HmError.internalVariantLength
            else Except.ok (tblmd, variant)
      | _ => Except.error HmError.multipleMetadataMatch) = _
    dsimp only
    rw [htbl]
  constructor
  · intro v hv
    have hlen : v.length = columns.length := by
      unfold lookupVariant at hv
      rcases hfind : tblmd.variants.find? (fun e => e.1 == columns) with _ | e
      · rw [hfind] at hv
        cases hv
      · rw [hfind] at hv
        simp at hv
        have heq : e.1 = columns := by
          have := List.find?_some hfind
          simpa using this
        have hmem := List.mem_of_find?_eq_some hfind
        have hl := hwf e hmem
        rw [← hv, ← heq]
        exact hl.symm
    rw [hm, hv]
    dsimp only
    rw [if_neg (by simp [hlen])]
    exact ⟨rfl, hlen⟩
  · intro hv
    rw [hm, hv]
    refine ⟨rfl, ?_⟩
    intro tb h
    simp at h

/-- C3 (witness): the fixture metadata, whose variant map is built by the
loader construction; the observed header is its only key. -/
theorem c3_variant_resolution_witness :
    header_match witnessEnv [⟨"TIMESTAMP", "TS", ""⟩, ⟨"val", "", ""⟩]
      [witnessMd] = .ok (witnessTable, [0, 1]) ∧
    ([0, 1] : List Nat).length =
      ([⟨"TIMESTAMP", "TS", ""⟩, ⟨"val", "", ""⟩] : List ColumnHeader).length := by
  have h := (c3_variant_resolution witnessEnv
    [⟨"TIMESTAMP", "TS", ""⟩, ⟨"val", "", ""⟩] [witnessMd] witnessMd witnessTable
    (by decide) (by decide)
    (buildVariants_wf none witnessColumns)).1 [0, 1] (by decide)
  exact h

/-- C5: when exactly one metadata matches but the observed table name is
not among its tables, the source tries to raise
`NoTableMatch(repr(envline), table_name=...)`; since the constructor's
required keyword argument `md` is omitted, the call itself raises
`TypeError`, so resolution fails with a `TypeError` about the missing
argument and never with a `NoTableMatch` carrying the metadata and
table name. -/
theorem c5_no_table_match_type_error (env : EnvironmentLine)
    (columns : List ColumnHeader) (metadatas : List Metadata) (md : Metadata)
    (hfound : collectFound env metadatas = .ok [md])
    (htbl : tablesLookup md.tables env.table_name = none) :
    header_match env columns metadatas =
      .error (.typeError
        "NoTableMatch.__init__() missing 1 required keyword-only argument: md") ∧
    ∀ (md2 : Metadata) (tn : String),
      header_match env columns metadatas ≠ .error (.noTableMatch md2 tn) := by
  have hm : header_match env columns metadatas =
      .error (.typeError
        "NoTableMatch.__init__() missing 1 required keyword-only argument: md") := by
    unfold header_match
    rw [hfound]
    show (match [md] with
      | [] => Except.error (HmError.noMetadataMatch env)
      | [md] =>
        match tablesLookup md.tables env.table_name with
        | none => Except.error (HmError.typeError
            "NoTableMatch.__init__() missing 1 required keyword-only argument: md")
        | some tblmd =>
          match lookupVariant tblmd.variants columns with
          | none => Except.error (HmError.typeError
              "NoVariantMatch.__init__() missing 1 required keyword-only argument: tblmd")
          | some variant =>
            if variant.length ≠ columns.length then Except.error HmError.internalVariantLength
            else Except.ok (tblmd, variant)
      | _ => Except.error HmError.multipleMetadataMatch) = _
    dsimp only
    rw [htbl]
  refine ⟨hm, ?_⟩
  intro md2 tn h
  rw [hm] at h
  simp at h

/-- C5 (witness): resolving a file that names the unconfigured table
`bar` against the fixture metadata. -/
theorem c5_no_table_match_type_error_witness :
    header_match witnessEnvBadTable [⟨"TIMESTAMP", "TS", ""⟩] [witnessMd] =
      .error (.typeError
        "NoTableMatch.__init__() missing 1 required keyword-only argument: md") :=
  (c5_no_table_match_type_error witnessEnvBadTable [⟨"TIMESTAMP", "TS", ""⟩]
    [witnessMd] witnessMd (by decide) (by decide)).1

/-- C2 (counterexample): `Ignore.check` accepts every string while the
conversions it inherits from `BaseType` always raise
`NotImplementedError`; and `TimestampNoTz.check` is purely syntactic, so
it accepts `2021-13-01 00:00:00` although `to_py`/`to_np` fail on the
invalid month. -/
theorem c2_conversion_counterexample :
    BaseType.check .Ignore "x" = true ∧
    BaseType.to_py .Ignore "x" = none ∧
    BaseType.to_np .Ignore "x" = none ∧
    BaseType.check .TimestampNoTz "2021-13-01 00:00:00" = true ∧
    BaseType.to_py .TimestampNoTz "2021-13-01 00:00:00" = none ∧
    BaseType.to_np .TimestampNoTz "2021-13-01 00:00:00" = none := by decide

/-- C2 (amended): for every variant, `check(s) = False` implies `to_py`
and `to_np` both raise; the converse success guarantee holds for
`NonNegInt`, `BigInt`, `OnlyNan` and `Num` (any precision/scale), but not
for `Ignore` (whose `check` is constantly `True` while its conversions
are unimplemented) and not for the timestamp types (whose `check` passes
syntactically well-formed but calendar-invalid strings on which
conversion fails). -/
theorem c2_check_vs_conversions :
    (∀ (t : BaseType) (s : String), t.check s = false →
        t.to_py s = none ∧ t.to_np s = none) ∧
    (∀ s : String, BaseType.check .NonNegInt s = true →
        (BaseType.to_py .NonNegInt s).isSome = true ∧
        (BaseType.to_np .NonNegInt s).isSome = true) ∧
    (∀ s : String, BaseType.check .BigInt s = true →
        (BaseType.to_py .BigInt s).isSome = true ∧
        (BaseType.to_np .BigInt s).isSome = true) ∧
    (∀ s : String, BaseType.check .OnlyNan s = true →
        (BaseType.to_py .OnlyNan s).isSome = true ∧
        (BaseType.to_np .OnlyNan s).isSome = true) ∧
    (∀ (p sc : Option Nat) (s : String), BaseType.check (.Num p sc) s = true →
        (BaseType.to_py (.Num p sc) s).isSome = true ∧
        (BaseType.to_np (.Num p sc) s).isSome = true) ∧
    (∀ s : String, BaseType.to_py .Ignore s = none ∧
        BaseType.to_np .Ignore s = none) := by
  refine ⟨?_, ?_, ?_, ?_, ?_, fun s => ⟨rfl, rfl⟩⟩
  · intro t s h
    cases t <;> simp [BaseType.to_py, BaseType.to_np, h]
  · intro s h
    constructor <;> (simp [BaseType.to_py, BaseType.to_np, h]; split <;> simp)
  · intro s h
    constructor <;> (simp [BaseType.to_py, BaseType.to_np, h]; split <;> simp)
  · intro s h
    constructor <;> simp [BaseType.to_py, BaseType.to_np, h]
  · intro p sc s h
    have hacc := pyAccepts_of_num_check h
    constructor <;> simp [BaseType.to_py, BaseType.to_np, h, hacc]

/-- C2 (witness): the amended statement applied at `NonNegInt` with the
rejected string `x` and at unconstrained `Num` with the accepted string
`5.5`. -/
theorem c2_check_vs_conversions_witness :
    BaseType.to_py .NonNegInt "x" = none ∧
    (BaseType.to_py (.Num none none) "5.5").isSome = true := by
  have h := c2_check_vs_conversions
  exact ⟨(h.1 .NonNegInt "x" (by decide)).1,
    (h.2.2.2.2.1 none none "5.5" (by decide)).1⟩

lemma digitChar_mod_isDigit (n : Nat) : (Nat.digitChar (n % 10)).isDigit = true :=
  digitChar_isDigit (Nat.mod_lt _ (by decide))

lemma fmtTs_length (dt : DateTime) : (fmtTs dt).length = 19 := by
  simp [fmtTs]

lemma fmtTsZ_canonical (dt : DateTime) : isCanonicalUtcZ (fmtTsZ dt) = true := by
  show tsCoreMatch ((fmtTs dt ++ ['Z']).take 19) &&
    ((fmtTs dt ++ ['Z']).drop 19 == ['Z']) = true
  have h1 : (fmtTs dt ++ ['Z']).take 19 = fmtTs dt := by
    rw [show (19 : Nat) = (fmtTs dt).length from (fmtTs_length dt).symm]
    exact List.take_left _ _
  have h2 : (fmtTs dt ++ ['Z']).drop 19 = ['Z'] := by
    rw [show (19 : Nat) = (fmtTs dt).length from (fmtTs_length dt).symm]
    exact List.drop_left _ _
  rw [h1, h2]
  unfold fmtTs tsCoreMatch
  simp [digitChar_mod_isDigit]

lemma mapOpt_some_of_all {α β} {f : α → Option β} : ∀ {l : List α},
    (∀ a ∈ l, (f a).isSome = true) →
    ∃ bl, mapOpt f l = some bl ∧ bl.length = l.length ∧
      ∀ i (hi : i < l.length) (hb : i < bl.length),
        f (l.get ⟨i, hi⟩) = some (bl.get ⟨i, hb⟩) := by
  intro l
  induction l with
  | nil =>
    intro _
    exact ⟨[], rfl, rfl, by intro i hi; simp at hi⟩
  | cons a rest ih =>
    intro h
    have ha := h a (by simp)
    rw [Option.isSome_iff_exists] at ha
    obtain ⟨b, hb⟩ := ha
    obtain ⟨bl, hbl, hlenb, hpt⟩ := ih (fun x hx => h x (by simp [hx]))
    refine ⟨b :: bl, ?_, by simp [hlenb], ?_⟩
    · unfold mapOpt
      rw [hb, hbl]
    · intro i hi hbd
      cases i with
      | zero => simpa using hb
      | succ i0 =>
        exact hpt i0 (by simpa using hi) (by simpa using hbd)

/-- C6 (spec-modelled): on a record whose row length matches its variant
and whose timestamp values convert, `tzconv` succeeds and returns a new
record with the same table and variant in which every `TimestampNoTz`
value, interpreted in the declared timezone `tz`, and every
`TimestampWithTz` value, interpreted in its embedded offset, is
reformatted into the canonical UTC shape `YYYY-MM-DD HH:MM:SSZ` with a
trailing `Z`, while every other position is unchanged; the input record
itself is untouched (`tzconv` is a pure function on immutable records). -/
theorem c6_tzconv_canonical_utc (r : Record) (tz : Int)
    (hlen : r.origrow.length = r.variant.length)
    (hok : ∀ p ∈ r.origrow.zip r.variant,
      (tzconvVal r.tblmd.columns tz p.1 p.2).isSome = true) :
    ∃ r2, r.tzconv tz = some r2 ∧
      r2.tblmd = r.tblmd ∧ r2.variant = r.variant ∧
      r2.origrow.length = r.origrow.length ∧
      ∀ i (hi : i < (r.origrow.zip r.variant).length)
        (h2 : i < r2.origrow.length) (col : MdColumn),
        r.tblmd.columns.get? ((r.origrow.zip r.variant).get ⟨i, hi⟩).2 = some col →
        ((col.type = some .TimestampNoTz →
           ∃ dt, fromisoformatNoTz ((r.origrow.zip r.variant).get ⟨i, hi⟩).1 = some dt ∧
             r2.origrow.get ⟨i, h2⟩ = fmtTsZ (shiftMinutes dt (-tz)) ∧
             isCanonicalUtcZ (r2.origrow.get ⟨i, h2⟩) = true) ∧
         (col.type = some .TimestampWithTz →
           ∃ dt off,
             fromisoformatWithTz ((r.origrow.zip r.variant).get ⟨i, hi⟩).1 =
               some (dt, off) ∧
             r2.origrow.get ⟨i, h2⟩ = fmtTsZ (shiftMinutes dt (-off)) ∧
             isCanonicalUtcZ (r2.origrow.get ⟨i, h2⟩) = true) ∧
         (col.type ≠ some .TimestampNoTz → col.type ≠ some .TimestampWithTz →
           r2.origrow.get ⟨i, h2⟩ = ((r.origrow.zip r.variant).get ⟨i, hi⟩).1)) := by
  obtain ⟨bl, hbl, hlenb, hpt⟩ := mapOpt_some_of_all hok
  refine ⟨{ r with origrow := bl }, ?_, rfl, rfl, ?_, ?_⟩
  · unfold Record.tzconv
    rw [if_neg (by simp [hlen])]
    rw [hbl]
    rfl
  · show bl.length = r.origrow.length
    rw [hlenb, List.length_zip, ← hlen, Nat.min_self]
  · intro i hi h2 col hcol
    have hfi := hpt i hi h2
    unfold tzconvVal at hfi
    rw [hcol] at hfi
    dsimp only at hfi
    refine ⟨?_, ?_, ?_⟩
    · intro htype
      rw [htype] at hfi
      dsimp only at hfi
      rcases hparse : fromisoformatNoTz ((r.origrow.zip r.variant).get ⟨i, hi⟩).1
        with _ | dt
      · rw [hparse] at hfi
        simp at hfi
      · rw [hparse] at hfi
        simp at hfi
        refine ⟨dt, rfl, hfi.symm, ?_⟩
        show isCanonicalUtcZ (bl.get ⟨i, h2⟩) = true
        rw [List.get_eq_getElem, ← hfi]
        exact fmtTsZ_canonical _
    · intro htype
      rw [htype] at hfi
      dsimp only at hfi
      rcases hparse : fromisoformatWithTz ((r.origrow.zip r.variant).get ⟨i, hi⟩).1
        with _ | p
      · rw [hparse] at hfi
        simp at hfi
      · rcases p with ⟨dt, off⟩
        rw [hparse] at hfi
        simp at hfi
        refine ⟨dt, off, rfl, hfi.symm, ?_⟩
        show isCanonicalUtcZ (bl.get ⟨i, h2⟩) = true
        rw [List.get_eq_getElem, ← hfi]
        exact fmtTsZ_canonical _
    · intro hn1 hn2
      cases htype : col.type with
      | none =>
        rw [htype] at hfi
        dsimp only at hfi
        have := Option.some.inj hfi
        exact this.symm
      | some t =>
        rw [htype] at hfi
        cases t with
        | TimestampNoTz => exact absurd htype hn1
        | TimestampWithTz => exact absurd htype hn2
        | NonNegInt =>
          have := Option.some.inj hfi
          exact this.symm
        | BigInt =>
          have := Option.some.inj hfi
          exact this.symm
        | OnlyNan =>
          have := Option.some.inj hfi
          exact this.symm
        | Ignore =>
          have := Option.some.inj hfi
          exact this.symm
        | Num p sc =>
          have := Option.some.inj hfi
          exact this.symm

/-- C6 (witness): `tzconv` on the concrete fixture record, table
timezone one hour east of UTC. -/
theorem c6_tzconv_canonical_utc_witness :
    Record.tzconv witnessGoodRecord 60 =
      some { witnessGoodRecord with
        origrow := ["2020-12-31 23:00:00Z", "5"] } := by
  obtain ⟨r2, h1, _⟩ := c6_tzconv_canonical_utc witnessGoodRecord 60
    (by decide) (by decide)
  rw [h1]
  have : r2 = { witnessGoodRecord with origrow := ["2020-12-31 23:00:00Z", "5"] } := by
    have h2 := h1
    rw [show Record.tzconv witnessGoodRecord 60 =
      some { witnessGoodRecord with origrow := ["2020-12-31 23:00:00Z", "5"] } from by decide] at h2
    exact (Option.some.inj h2).symm
  rw [this]

/-- C1 (counterexample): the claim "every `check` accepts the
case-insensitive literal `nan`" fails on both timestamp types, whose
regexes admit no such string. -/
theorem c1_nan_counterexample :
    BaseType.check .TimestampNoTz "nan" = false ∧
    BaseType.check .TimestampNoTz "NaN" = false ∧
    BaseType.check .TimestampWithTz "nan" = false ∧
    BaseType.check .TimestampWithTz "NaN" = false := by decide

/-- C1 (amended): for every string equal to `nan` up to letter case,
`check` returns `True` for `NonNegInt`, `BigInt`, `Num` (any
precision/scale), `OnlyNan` and `Ignore`, but `False` for
`TimestampNoTz` and `TimestampWithTz`. -/
theorem c1_nan_check (s : String) (h : strLower s = "nan") :
    BaseType.check .NonNegInt s = true ∧
    BaseType.check .BigInt s = true ∧
    (∀ precision scale : Option Nat, BaseType.check (.Num precision scale) s = true) ∧
    BaseType.check .OnlyNan s = true ∧
    BaseType.check .Ignore s = true ∧
    BaseType.check .TimestampNoTz s = false ∧
    BaseType.check .TimestampWithTz s = false := by
  have hlen := data_length_of_strLower_nan h
  refine ⟨by simp [BaseType.check, h], by simp [BaseType.check, h],
    fun p sc => by cases p <;> simp [BaseType.check, h],
    by simp [BaseType.check, h], rfl, ?_, ?_⟩
  · show tsCoreMatch s.data = false
    cases hb : tsCoreMatch s.data with
    | false => rfl
    | true =>
      have := tsCoreMatch_length hb
      omega
  · show tsTzMatch s.data = false
    unfold tsTzMatch
    cases hb : tsCoreMatch (s.data.take 19) with
    | false => simp [hb]
    | true =>
      have h19 := tsCoreMatch_length hb
      rw [List.length_take] at h19
      omega

/-- C1 (witness): the amended statement at the concrete input `NaN`. -/
theorem c1_nan_check_witness :
    BaseType.check .NonNegInt "NaN" = true ∧
    BaseType.check .TimestampNoTz "NaN" = false := by
  have h := c1_nan_check "NaN" (by decide)
  exact ⟨h.1, h.2.2.2.2.2.1⟩

end IgbData
